import Mathlib

/-!
# Verification of the netmon traffic-monitor window pipeline

Shallow embedding of the window-processing pipeline of the netmon traffic
monitor (`app/alerts.py`, `app/ml_model.py`, `app/worker.py`, `app/storage.py`)
together with proofs of the specified properties.

Numeric values that are Python `float`s are modelled as exact rationals (`ℚ`);
Python `int`s are modelled as `Nat`/`Int`.  Dictionaries are modelled as
association lists in insertion order.  External collaborators (the
classification model, the LLM backend, the extraction subprocess) are
modelled as explicit functional parameters describing their observable
outcomes.
-/

namespace NetMon

/-! ## Alert rule engine (`app/alerts.py`) -/

/-- The `alerts` section of the public configuration
(`config.DEFAULT_PUBLIC_CONFIG["alerts"]` plus whatever the operator set). -/
structure PublicAlertsConfig where
  enable_public_alerts : Bool
  alert_threshold_attack_percent : ℚ
  alert_threshold_unknown_percent : ℚ
  alert_threshold_flow_count : Nat
deriving DecidableEq

/-- The default public alert configuration from `config.DEFAULT_PUBLIC_CONFIG`. -/
def defaultAlertsConfig : PublicAlertsConfig :=
  { enable_public_alerts := true
    alert_threshold_attack_percent := 10
    alert_threshold_unknown_percent := 20
    alert_threshold_flow_count := 1000 }

/-- The fields of a persisted `WindowModel` row that the alert engine reads
(`database.WindowModel`).  `start_time` is an epoch timestamp; it only feeds
alert messages and metadata, which we do not model further. -/
structure WindowModel where
  id : String
  start_time : Int
  total_flows : Nat
  benign_flows : Nat
  attack_flows : Nat
  unknown_flows : Nat
  attacks_per_label : List (String × Nat)
deriving DecidableEq

/-- The discriminating fields of an `AlertModel` row created by
`check_and_create_alerts` (`database.AlertModel`); the free-text `message`
and the `alert_metadata` payload repeat the same numbers and are omitted. -/
structure AlertModel where
  window_id : String
  alert_type : String
  severity : String
  title : String
deriving DecidableEq

/-- `alerts.check_and_create_alerts`: evaluate one persisted window against the
alert rules and return the created alerts, in creation order. -/
def check_and_create_alerts (w : WindowModel) (cfg : PublicAlertsConfig) :
    List AlertModel :=
  if cfg.enable_public_alerts = false then []
  else if w.total_flows = 0 then []
  else
    let attack_percent : ℚ := (w.attack_flows : ℚ) / (w.total_flows : ℚ) * 100
    let unknown_percent : ℚ := (w.unknown_flows : ℚ) / (w.total_flows : ℚ) * 100
    let attackAlerts : List AlertModel :=
      if attack_percent ≥ 50 then
        [{ window_id := w.id, alert_type := "critical", severity := "high",
           title := "Critical: High Attack Rate Detected" }]
      else if attack_percent ≥ cfg.alert_threshold_attack_percent then
        [{ window_id := w.id, alert_type := "elevated", severity := "medium",
           title := "Elevated: Attack Activity Detected" }]
      else []
    let unknownAlerts : List AlertModel :=
      if unknown_percent ≥ cfg.alert_threshold_unknown_percent then
        [{ window_id := w.id, alert_type := "elevated", severity := "medium",
           title := "Elevated: High Unknown Flow Rate" }]
      else []
    let volumeAlerts : List AlertModel :=
      if w.total_flows ≥ cfg.alert_threshold_flow_count then
        [{ window_id := w.id, alert_type := "info", severity := "low",
           title := "Info: High Traffic Volume" }]
      else []
    let labelAlerts : List AlertModel :=
      (w.attacks_per_label.filter (fun p => 10 ≤ p.2)).map
        (fun p =>
          { window_id := w.id, alert_type := "elevated", severity := "medium",
            title := "Elevated: " ++ p.1 ++ " Activity" })
    attackAlerts ++ unknownAlerts ++ volumeAlerts ++ labelAlerts

/-- Number of alerts in `l` bearing the title `t`. -/
def countTitle (l : List AlertModel) (t : String) : Nat :=
  (l.filter (fun a => a.title = t)).length

/-! ## Feature rows (`csv.DictReader` rows and `worker._get_numeric_from_row`) -/

/-- One cell of a CSV row, as `_get_numeric_from_row` and `classify_row`
distinguish them: the column is missing from the row (or carries `None`),
carries the empty string, carries a non-empty string that `float()` rejects,
or carries a string parsing to the rational `q`. -/
inductive Cell
  | absent
  | empty
  | bad
  | num (q : ℚ)
deriving DecidableEq

/-- A CSV row: the association of column names to cells, in column order. -/
abbrev Row := List (String × Cell)

/-- `worker.FEATURE_COLUMN_ALIASES`, in source order. -/
def FEATURE_COLUMN_ALIASES : List (String × List String) :=
  [("duration", ["duration"]),
   ("packets_count", ["packets_count"]),
   ("total_payload_bytes", ["total_payload_bytes"]),
   ("bytes_rate", ["bytes_rate"]),
   ("packets_rate", ["packets_rate"]),
   ("active_mean", ["active_mean"]),
   ("idle_mean", ["idle_mean"]),
   ("fwd_packets_iat_mean",
      ["fwd_packets_iAT_mean", "fwd_packets_IAT_mean", "fwd_packets_iat_mean"]),
   ("bwd_packets_iat_mean",
      ["bwd_packets_iAT_mean", "bwd_packets_IAT_mean", "bwd_packets_iat_mean"])]

/-- `worker.FEATURES_OF_INTEREST = list(FEATURE_COLUMN_ALIASES.keys())`. -/
def FEATURES_OF_INTEREST : List String := FEATURE_COLUMN_ALIASES.map Prod.fst

/-- The alias list `FEATURE_COLUMN_ALIASES[feat]`. -/
def aliasesFor (feat : String) : List String :=
  (FEATURE_COLUMN_ALIASES.lookup feat).getD []

/-- `worker._get_numeric_from_row`: try the alias column names in order and
return the first present, non-empty value that parses as a float; a missing,
empty or unparsable value falls through to the next alias. -/
def _get_numeric_from_row (row : Row) (aliases : List String) : Option ℚ :=
  match aliases with
  | [] => none
  | col :: rest =>
    match row.lookup col with
    | some (Cell.num q) => some q
    | _ => _get_numeric_from_row row rest

/-- Python `int()` applied to a float: truncation toward zero. -/
def pyInt (q : ℚ) : Int := if 0 ≤ q then ⌊q⌋ else ⌈q⌉

/-! ## Window aggregation and per-flow classification tallying
(`worker.summarise_features_and_ml`) -/

/-- The outcome of the `classify_row(row)` call for one row, as observed by
the worker loop: the optional label the call returned (`.ok`), or an
exception escaping the call (`.err`, handled by the per-row `except`). -/
inductive ClassifyOutcome
  | ok (label : Option String)
  | err
deriving DecidableEq

/-- `statistics.FeatureStats` record produced per feature
(`storage.FeatureStats`): mean/min/max of the observed values. -/
structure FeatureStats where
  mean : ℚ
  min : ℚ
  max : ℚ
deriving DecidableEq

/-- The mutable per-window accumulators of `summarise_features_and_ml`
before the final statistics pass. -/
structure SummariseState where
  flows_count : Nat
  total_packets : Int
  total_payload_bytes : Int
  series : List (String × List ℚ)
  benign_flows : Nat
  attack_flows : Nat
  unknown_flows : Nat
  attacks_per_label : List (String × Nat)
  ml_classifications : Nat
deriving DecidableEq

/-- Append `v` to the series of feature `feat`
(`series[canonical_name].append(value)`). -/
def appendSeries (series : List (String × List ℚ)) (feat : String) (v : ℚ) :
    List (String × List ℚ) :=
  series.map (fun p => if p.1 = feat then (p.1, p.2 ++ [v]) else p)

/-- `attacks_per_label[label] = attacks_per_label.get(label, 0) + 1` on an
insertion-ordered dict. -/
def incrLabel (hist : List (String × Nat)) (label : String) :
    List (String × Nat) :=
  if hist.any (fun p => p.1 = label) then
    hist.map (fun p => if p.1 = label then (p.1, p.2 + 1) else p)
  else hist ++ [(label, 1)]

/-- One iteration of the `for canonical_name in FEATURES_OF_INTEREST` loop:
append the row's value for the feature to its series when present. -/
def collectStep (row : Row) (s : List (String × List ℚ)) (feat : String) :
    List (String × List ℚ) :=
  match _get_numeric_from_row row (aliasesFor feat) with
  | some v => appendSeries s feat v
  | none => s

/-- The `for canonical_name in FEATURES_OF_INTEREST` loop: collect the
present feature values of one row into the running series. -/
def collectFeatures (row : Row) (s : List (String × List ℚ)) :
    List (String × List ℚ) :=
  FEATURES_OF_INTEREST.foldl (collectStep row) s

/-- The body of the `for row in reader` loop of `summarise_features_and_ml`. -/
def summariseStep (classify : Row → ClassifyOutcome) (use_model : Bool)
    (st : SummariseState) (row : Row) : SummariseState :=
  let st := { st with flows_count := st.flows_count + 1 }
  let st :=
    match _get_numeric_from_row row (aliasesFor "packets_count") with
    | some v => { st with total_packets := st.total_packets + pyInt v }
    | none => st
  let st :=
    match _get_numeric_from_row row (aliasesFor "total_payload_bytes") with
    | some v => { st with total_payload_bytes := st.total_payload_bytes + pyInt v }
    | none => st
  let st := { st with series := collectFeatures row st.series }
  if use_model then
    match classify row with
    | ClassifyOutcome.err =>
      { st with
        unknown_flows := st.unknown_flows + 1,
        attacks_per_label := incrLabel st.attacks_per_label "Unknown" }
    | ClassifyOutcome.ok none =>
      { st with ml_classifications := st.ml_classifications + 1 }
    | ClassifyOutcome.ok (some label) =>
      let st := { st with ml_classifications := st.ml_classifications + 1 }
      if label = "Benign" then { st with benign_flows := st.benign_flows + 1 }
      else if label = "Unknown" then
        { st with
          unknown_flows := st.unknown_flows + 1,
          attacks_per_label := incrLabel st.attacks_per_label "Unknown" }
      else
        { st with
          attack_flows := st.attack_flows + 1,
          attacks_per_label := incrLabel st.attacks_per_label label }
  else st

/-- The result tuple of `summarise_features_and_ml`. -/
structure SummariseResult where
  flows_count : Nat
  total_packets : Int
  total_payload_bytes : Int
  feature_stats : List (String × FeatureStats)
  benign_flows : Nat
  attack_flows : Nat
  unknown_flows : Nat
  attacks_per_label : List (String × Nat)
deriving DecidableEq

/-- The initial accumulator state of `summarise_features_and_ml`. -/
def initSummariseState : SummariseState :=
  { flows_count := 0, total_packets := 0, total_payload_bytes := 0,
    series := FEATURES_OF_INTEREST.map (fun f => (f, [])),
    benign_flows := 0, attack_flows := 0, unknown_flows := 0,
    attacks_per_label := [], ml_classifications := 0 }

/-- `statistics.mean`, `min(values)`, `max(values)` of the non-empty value
list `v :: vs` (exact mean; `min`/`max` as the left folds Python computes). -/
def statsOf (v : ℚ) (vs : List ℚ) : FeatureStats :=
  { mean := (v :: vs).sum / ((v :: vs).length : ℚ),
    min := vs.foldl Min.min v,
    max := vs.foldl Max.max v }

/-- The final statistics pass of `summarise_features_and_ml`: one
`FeatureStats` per feature with at least one observed value; features with
empty series are skipped. -/
def featureStatsOf (series : List (String × List ℚ)) :
    List (String × FeatureStats) :=
  series.filterMap (fun p =>
    match p.2 with
    | [] => none
    | v :: vs => some (p.1, statsOf v vs))

/-- `worker.summarise_features_and_ml`, as a function of the parsed rows of
the CSV file, the observable behaviour of `ml_model.classify_row`, and
`use_model = model_is_ready() and admin_config.ml.get("enabled", True)`. -/
def summarise_features_and_ml (rows : List Row)
    (classify : Row → ClassifyOutcome) (use_model : Bool) : SummariseResult :=
  let st := rows.foldl (summariseStep classify use_model) initSummariseState
  let st :=
    if use_model = false then
      { st with
        benign_flows := st.flows_count, attack_flows := 0, unknown_flows := 0,
        attacks_per_label := [] }
    else st
  { flows_count := st.flows_count,
    total_packets := st.total_packets,
    total_payload_bytes := st.total_payload_bytes,
    feature_stats := featureStatsOf st.series,
    benign_flows := st.benign_flows,
    attack_flows := st.attack_flows,
    unknown_flows := st.unknown_flows,
    attacks_per_label := st.attacks_per_label }

/-! ## Flow classifier adapter (`app/ml_model.py`) -/

/-- `ml_model.FEATURE_COLUMNS`: the ordered feature columns fed to the model. -/
def FEATURE_COLUMNS : List String :=
  ["duration", "packets_count", "total_payload_bytes", "bytes_rate",
   "packets_rate", "active_mean", "idle_mean", "fwd_packets_IAT_mean",
   "bwd_packets_IAT_mean", "segment_size_mean", "subflow_fwd_packets",
   "subflow_bwd_packets", "subflow_fwd_bytes", "subflow_bwd_bytes",
   "handshake_duration", "packets_IAT_mean", "packets_IAT_std",
   "fwd_bytes_rate", "bwd_bytes_rate", "down_up_rate"]

/-- `ml_model.ML_THRESHOLD = 0.90`. -/
def ML_THRESHOLD : ℚ := 9 / 10

/-- `ml_model.BENIGN_LABEL_CANONICAL`. -/
def BENIGN_LABEL_CANONICAL : String := "Benign"

/-- An ASCII whitespace character, as Python `str.strip()` removes them
(space, tab, newline, carriage return, vertical tab, form feed). -/
def pyIsSpace (c : Char) : Bool :=
  c = ' ' ∨ c = '\t' ∨ c = '\n' ∨ c = '\r' ∨ c.toNat = 11 ∨ c.toNat = 12

/-- Python `str.strip()` on ASCII text: drop leading and trailing
whitespace. -/
def pyStrip (s : String) : String :=
  String.mk (((s.data.dropWhile pyIsSpace).reverse.dropWhile pyIsSpace).reverse)

/-- Python `str.lower()` on one ASCII character. -/
def pyToLowerChar (c : Char) : Char :=
  if 65 ≤ c.toNat ∧ c.toNat ≤ 90 then Char.ofNat (c.toNat + 32) else c

/-- Python `str.lower()` on ASCII text. -/
def pyLower (s : String) : String := String.mk (s.data.map pyToLowerChar)

/-- `ml_model._normalize_label`: strip surrounding whitespace; fold the
benign-meaning spellings (case-insensitively) to the canonical benign label;
return everything else stripped. -/
def _normalize_label (raw : String) : String :=
  let s := pyStrip raw
  if pyLower s = "benign" ∨ pyLower s = "normal" ∨ pyLower s = "background" then
    BENIGN_LABEL_CANONICAL
  else s

/-- A loaded classification model, through the contract `classify_row` uses:
the ordered class-label list `classes_` and `predict_proba` on one feature
vector (`.error` models an exception raised by the model). -/
structure MlModel where
  classes : List String
  predict_proba : List ℚ → Except Unit (List ℚ)

/-- The `x` vector built by `classify_row`: for every column of
`FEATURE_COLUMNS`, a missing or empty cell contributes `0.0`, a numeric cell
its value, and an unparsable cell raises `ValueError` (`.error`). -/
def feature_vector_of_row (row : Row) : List String → Except Unit (List ℚ)
  | [] => Except.ok []
  | col :: rest => do
    let q : ℚ ←
      match row.lookup col with
      | none => Except.ok 0
      | some Cell.absent => Except.ok 0
      | some Cell.empty => Except.ok 0
      | some Cell.bad => Except.error ()
      | some (Cell.num q) => Except.ok q
    let qs ← feature_vector_of_row row rest
    return q :: qs

/-- `max(range(len(probs)), key=lambda i: probs[i])`: the first index of a
maximal element, computed as Python `max` computes it (replace the running
best only on a strictly greater key). -/
def argmax_first (l : List ℚ) : Nat :=
  (List.range l.length).foldl
    (fun best i => if l.getD best 0 < l.getD i 0 then i else best) 0

/-- `ml_model.classify_row` for a loaded model: build the feature vector,
ask the model for class probabilities, take the first maximal class; the
label lookup happens before the threshold test, and any exception on the way
(unparsable cell, model error, empty probability vector, index error) is
caught and degrades the row to `"Unknown"`. -/
def classify_row (m : MlModel) (row : Row) : String :=
  match feature_vector_of_row row FEATURE_COLUMNS with
  | Except.error _ => "Unknown"
  | Except.ok x =>
    match m.predict_proba x with
    | Except.error _ => "Unknown"
    | Except.ok probs =>
      if probs.isEmpty then "Unknown"
      else
        let max_idx := argmax_first probs
        let max_prob := probs.getD max_idx 0
        match m.classes.get? max_idx with
        | none => "Unknown"
        | some raw_label =>
          if max_prob < ML_THRESHOLD then "Unknown"
          else _normalize_label raw_label

/-! ## Extraction retry discipline (`worker.run_ntlflowlyzer_for_pcap`) -/

/-- The observable outcome of one `subprocess.run` invocation of the
NTLFlowLyzer binary. -/
inductive AttemptOutcome
  | success
  | nonzeroExit
  | timeoutExpired
deriving DecidableEq

/-- `worker.run_ntlflowlyzer_for_pcap`, as a function of the attempt
outcomes: `attempts k` is the outcome of the invocation made with
`retry_count = k`.  Returns the boolean result of the call, the number of
subprocess invocations performed, and the total `time.sleep` delay.
A non-zero exit with retries left sleeps `RETRY_DELAY` and recurses with
`retry_count + 1`; with retries exhausted the raised `RuntimeError` is
caught by the same call's own `except Exception` handler, which returns
`False`.  A `TimeoutExpired` is caught immediately and returns `False`
without any retry. -/
def run_ntlflowlyzer_for_pcap (max_retries retry_delay : Nat)
    (attempts : Nat → AttemptOutcome) (retry_count : Nat) :
    Bool × Nat × Nat :=
  match attempts retry_count with
  | AttemptOutcome.success => (true, 1, 0)
  | AttemptOutcome.timeoutExpired => (false, 1, 0)
  | AttemptOutcome.nonzeroExit =>
    if retry_count < max_retries then
      let r := run_ntlflowlyzer_for_pcap max_retries retry_delay attempts
        (retry_count + 1)
      (r.1, r.2.1 + 1, r.2.2 + retry_delay)
    else (false, 1, 0)
termination_by max_retries - retry_count
decreasing_by omega

/-! ## UTC timestamps (`datetime.datetime` with `tzinfo=timezone.utc`)

`storage.Window.to_dict` serializes timestamps with
`isoformat().replace("+00:00", "Z")` and `storage._metrics_from_dict` parses
them back with `fromisoformat` after replacing a trailing `"Z"`.  A
timezone-aware UTC `datetime` is modelled by its components; Python's
constructor guarantees the ranges recorded in `DateTime.Valid`. -/

/-- Fixed-width decimal rendering: `w` digits of `n`, most significant
first (what `%Y`/`%m`/…-style zero-padded fields print for in-range `n`). -/
def renderNat : Nat → Nat → List Char
  | 0, _ => []
  | w + 1, n => renderNat w (n / 10) ++ [Nat.digitChar (n % 10)]

/-- Numeric value of a decimal digit character. -/
def digitVal (c : Char) : Nat := c.toNat - 48

/-- Read a digit string (most significant first) as a number. -/
def parseDigits (cs : List Char) : Nat :=
  cs.foldl (fun acc c => acc * 10 + digitVal c) 0

/-- Consume exactly `w` decimal digits from the front of `cs`. -/
def takeNatFixed (w : Nat) (cs : List Char) : Option (Nat × List Char) :=
  let pre := cs.take w
  if pre.length = w ∧ pre.all Char.isDigit then some (parseDigits pre, cs.drop w)
  else none

/-- Consume one expected character. -/
def expectChar (c : Char) : List Char → Option (List Char)
  | [] => none
  | x :: xs => if x = c then some xs else none

/-- A timezone-aware UTC `datetime.datetime`, by components. -/
structure DateTime where
  year : Nat
  month : Nat
  day : Nat
  hour : Nat
  minute : Nat
  second : Nat
  microsecond : Nat
deriving DecidableEq

/-- Gregorian leap-year test, as `calendar.isleap` / `datetime` use it. -/
def isLeapYear (y : Nat) : Bool :=
  (y % 4 == 0 && y % 100 != 0) || y % 400 == 0

/-- Days in a month of the proleptic Gregorian calendar. -/
def daysInMonth (y m : Nat) : Nat :=
  if m = 2 then (if isLeapYear y then 29 else 28)
  else if m = 4 ∨ m = 6 ∨ m = 9 ∨ m = 11 then 30
  else 31

/-- The component ranges a Python `datetime` object guarantees. -/
def DateTime.Valid (d : DateTime) : Prop :=
  1 ≤ d.year ∧ d.year ≤ 9999 ∧ 1 ≤ d.month ∧ d.month ≤ 12 ∧
  1 ≤ d.day ∧ d.day ≤ daysInMonth d.year d.month ∧
  d.hour ≤ 23 ∧ d.minute ≤ 59 ∧ d.second ≤ 59 ∧ d.microsecond ≤ 999999

instance : DecidablePred DateTime.Valid := fun d => by
  unfold DateTime.Valid
  infer_instance

/-- `datetime.isoformat()` without the UTC offset:
`YYYY-MM-DDTHH:MM:SS`, followed by `.ffffff` only when the microsecond
field is non-zero. -/
def isoChars (d : DateTime) : List Char :=
  renderNat 4 d.year ++ '-' :: renderNat 2 d.month ++ '-' :: renderNat 2 d.day ++
  'T' :: renderNat 2 d.hour ++ ':' :: renderNat 2 d.minute ++
  ':' :: renderNat 2 d.second ++
  (if d.microsecond = 0 then [] else '.' :: renderNat 6 d.microsecond)

/-- `isoformat()` of a timezone-aware UTC datetime: the `+00:00` offset is
appended. -/
def isoformat_utc (d : DateTime) : String :=
  String.mk (isoChars d ++ ['+', '0', '0', ':', '0', '0'])

/-- `isoformat().replace("+00:00", "Z")`, as `Window.to_dict` serializes a
UTC timestamp (the offset is the only place the serialized string contains
`+00:00`). -/
def iso_z (d : DateTime) : String :=
  String.mk (isoChars d ++ ['Z'])

/-- `datetime.fromisoformat` on the strings this pipeline produces:
`YYYY-MM-DDTHH:MM:SS[.ffffff]+00:00`, with the component validation the
`datetime` constructor performs. -/
def parseIsoUtcChars (cs : List Char) : Option DateTime := do
  let (y, cs) ← takeNatFixed 4 cs
  let cs ← expectChar '-' cs
  let (mo, cs) ← takeNatFixed 2 cs
  let cs ← expectChar '-' cs
  let (da, cs) ← takeNatFixed 2 cs
  let cs ← expectChar 'T' cs
  let (h, cs) ← takeNatFixed 2 cs
  let cs ← expectChar ':' cs
  let (mi, cs) ← takeNatFixed 2 cs
  let cs ← expectChar ':' cs
  let (s, cs) ← takeNatFixed 2 cs
  let (us, cs) ←
    match cs with
    | '.' :: rest => takeNatFixed 6 rest
    | _ => some (0, cs)
  match cs with
  | ['+', '0', '0', ':', '0', '0'] =>
    let dt : DateTime := ⟨y, mo, da, h, mi, s, us⟩
    if dt.Valid then some dt else none
  | _ => none

/-- `storage._metrics_from_dict.parse_ts`: a string ending in `"Z"`
(`s.endswith("Z")`, i.e. its last character is `'Z'`) has the `"Z"`
replaced by `"+00:00"` before `fromisoformat`. -/
def parse_ts (s : String) : Option DateTime :=
  if s.data.getLast? = some 'Z' then
    parseIsoUtcChars (s.data.dropLast ++ ['+', '0', '0', ':', '0', '0'])
  else
    parseIsoUtcChars s.data

/-- Days of the proleptic Gregorian calendar before month `m` of year `y`
(`datetime._days_before_month`). -/
def daysBeforeMonth (y m : Nat) : Nat :=
  ((List.range (m - 1)).map (fun i => daysInMonth y (i + 1))).sum

/-- `datetime.toordinal()`: day number in the proleptic Gregorian calendar,
with day 1 = 0001-01-01. -/
def DateTime.toOrdinal (d : DateTime) : Int :=
  let y : Int := (d.year : Int) - 1
  365 * y + y / 4 - y / 100 + y / 400 + (daysBeforeMonth d.year d.month : Int) +
    (d.day : Int)

/-- The instant of a UTC datetime in seconds (what
`(end - start).total_seconds()` differences measure), exact. -/
def DateTime.toSeconds (d : DateTime) : ℚ :=
  86400 * (d.toOrdinal : ℚ) + 3600 * (d.hour : ℚ) + 60 * (d.minute : ℚ) +
    (d.second : ℚ) + (d.microsecond : ℚ) / 1000000

/-! ## Window records of the file store (`app/storage.py`) -/

/-- `storage.WindowMetrics` (Python ints modelled as `Int`, floats as `ℚ`). -/
structure WindowMetrics where
  start_time : DateTime
  end_time : DateTime
  total_flows : Int
  total_packets : Int
  benign_flows : Int
  attack_flows : Int
  attacks_per_label : List (String × Int)
  total_payload_bytes : Int
  feature_stats : List (String × FeatureStats)
  unknown_flows : Int
deriving DecidableEq

/-- `storage.Window`. -/
structure Window where
  id : String
  metrics : WindowMetrics
  llm_summary : String
deriving DecidableEq

/-! ## Narrative builder (`worker.build_rule_based_summary`,
`worker.generate_llm_summary`) -/

/-- Group little-endian digit characters into blocks of three with commas. -/
def commaGroupAux : List Char → List Char
  | a :: b :: c :: d :: rest => a :: b :: c :: ',' :: commaGroupAux (d :: rest)
  | l => l

/-- Python `format(n, ",")` on a natural number. -/
def commaGroupNat (n : Nat) : String :=
  String.mk ((commaGroupAux (Nat.toDigits 10 n).reverse).reverse)

/-- Python `f"{n:,}"` on an int. -/
def commaGroupInt (n : Int) : String :=
  if n < 0 then "-" ++ commaGroupNat n.natAbs else commaGroupNat n.natAbs

/-- Round to the nearest integer, ties to even (Python float formatting). -/
def roundHalfEven (q : ℚ) : Int :=
  let f := ⌊q⌋
  if q - f < 1 / 2 then f
  else if 1 / 2 < q - f then f + 1
  else if f % 2 = 0 then f else f + 1

/-- Python `f"{q:.Nf}"` fixed-point formatting of a float, on the exact
rational value. -/
def formatFixed (decimals : Nat) (q : ℚ) : String :=
  let scaled := roundHalfEven (q * ((10 : ℚ) ^ decimals))
  let sign := if scaled < 0 then "-" else ""
  let n := scaled.natAbs
  let ip := n / 10 ^ decimals
  let fp := n % 10 ^ decimals
  if decimals = 0 then sign ++ toString ip
  else sign ++ toString ip ++ "." ++ String.mk (renderNat decimals fp)

/-- Python `sep.join(parts)`. -/
def join_with (sep : String) : List String → String
  | [] => ""
  | x :: xs => xs.foldl (fun acc y => acc ++ sep ++ y) x

/-- `worker.build_rule_based_summary`: the deterministic, rule-based
narrative for one window's metrics. -/
def build_rule_based_summary (window_id : String) (m : WindowMetrics) :
    String :=
  let duration_sec : ℚ := max (m.end_time.toSeconds - m.start_time.toSeconds) 1
  let flows := m.total_flows
  let lines : List String :=
    ["Window: " ++ isoformat_utc m.start_time ++ " to " ++
       isoformat_utc m.end_time ++ " (UTC)",
     "Duration: " ++ formatFixed 1 duration_sec ++ " seconds",
     "Total flows: " ++ commaGroupInt flows,
     "Total packets: " ++ commaGroupInt m.total_packets,
     "Total payload: " ++
       formatFixed 2 ((m.total_payload_bytes : ℚ) / 1024 / 1024) ++ " MB"]
  let lines :=
    if 0 < flows then
      lines ++ ["Classification: " ++
        formatFixed 1 (100 * (m.benign_flows : ℚ) / (flows : ℚ)) ++
        "% benign, " ++
        formatFixed 1 (100 * (m.attack_flows : ℚ) / (flows : ℚ)) ++
        "% attack, " ++
        formatFixed 1 (100 * (m.unknown_flows : ℚ) / (flows : ℚ)) ++
        "% unknown"]
    else lines
  let lines :=
    if m.attacks_per_label ≠ [] then
      let top_attacks :=
        (m.attacks_per_label.mergeSort (fun a b => decide (b.2 ≤ a.2))).take 3
      lines ++ ["Top attack types: " ++
        join_with ", "
          (top_attacks.map (fun p => p.1 ++ " (" ++ toString p.2 ++ ")"))]
    else lines
  join_with "\n" lines

/-- The observable outcome of the `generate_with_llm` call: the optional
text it returned, or an exception (`ValueError`, transport error, timeout —
all caught by the same `except`). -/
inductive LlmResult
  | ok (text : Option String)
  | err
deriving DecidableEq

/-- The fixed prompt template `generate_llm_summary` wraps around the draft
summary.  (The instruction lines are reproduced with the quoted-example
punctuation paraphrased; the template's exact wording plays no role in any
property proved here.) -/
def llm_prompt (base_summary : String) : String :=
  "You are a senior network security engineer writing notes for an internal monitoring dashboard.\n" ++
  "Below is a draft summary describing one 5-minute window of network traffic:\n\n" ++
  base_summary ++
  "\n\nRewrite this as 3-5 concise bullet points in a professional tone.\n" ++
  "IMPORTANT FORMAT RULES:\n" ++
  "- Output ONLY bullet points, nothing else.\n" ++
  "- Each bullet point MUST start with a dash and a space.\n" ++
  "- Do NOT add titles, headings, section labels, or explanations.\n" ++
  "- Do NOT mention the draft, the rewrite, the bullet points, or anything about the process.\n" ++
  "- Do NOT wrap the answer in quotes, backticks, or code fences.\n" ++
  "Just return the final bullet points."

/-- `worker.generate_llm_summary`: returns the narrative together with the
flag recording whether the `llm_failed` counter was incremented.  When the
LLM is disabled, errors, or returns empty/`None` text, the rule-based
summary is returned. -/
def generate_llm_summary (enabled : Bool) (llm : String → LlmResult)
    (window_id : String) (m : WindowMetrics) : String × Bool :=
  if enabled = false then (build_rule_based_summary window_id m, false)
  else
    let base_summary := build_rule_based_summary window_id m
    match llm (llm_prompt base_summary) with
    | LlmResult.err => (base_summary, true)
    | LlmResult.ok none => (base_summary, true)
    | LlmResult.ok (some t) =>
      if t = "" then (base_summary, true) else (t, false)

/-! ## Database store and the CSV-to-window pipeline
(`worker.process_csvs_to_windows`, `worker.save_window_to_db`) -/

/-- Build the persisted `WindowModel` row from one summarised CSV
(the fields `save_window_to_db` copies from the `Window`). -/
def windowModelOfSummary (window_id : String) (start_time : Int)
    (s : SummariseResult) : WindowModel :=
  { id := window_id, start_time := start_time, total_flows := s.flows_count,
    benign_flows := s.benign_flows, attack_flows := s.attack_flows,
    unknown_flows := s.unknown_flows,
    attacks_per_label := s.attacks_per_label }

/-- `worker.save_window_to_db` on the table contents: update the existing
row with the same id in place, otherwise insert. -/
def save_window_to_db (store : List WindowModel) (w : WindowModel) :
    List WindowModel :=
  if store.any (fun x => x.id = w.id) then
    store.map (fun x => if x.id = w.id then w else x)
  else store ++ [w]

/-- One discovered feature CSV: its window identifier, the window start
time parsed from it (`parse_window_times`), and its parsed data rows. -/
structure CsvFile where
  window_id : String
  start_time : Int
  rows : List Row

/-- The body of the `for csv_path in csv_files` loop of
`process_csvs_to_windows`: skip ids that already have a persisted window,
summarise, skip zero-flow files, persist otherwise. -/
def process_one_csv (classify : Row → ClassifyOutcome) (use_model : Bool)
    (store : List WindowModel) (f : CsvFile) : List WindowModel :=
  if store.any (fun x => x.id = f.window_id) then store
  else
    let s := summarise_features_and_ml f.rows classify use_model
    if s.flows_count = 0 then store
    else save_window_to_db store (windowModelOfSummary f.window_id f.start_time s)

/-- The prune step at the end of `process_csvs_to_windows`: order all
windows by start time descending and delete everything after the first
`MAX_WINDOWS` of them. -/
def pruneWindows (max_windows : Nat) (store : List WindowModel) :
    List WindowModel :=
  let all_windows := store.mergeSort (fun a b => decide (b.start_time ≤ a.start_time))
  if max_windows < all_windows.length then all_windows.take max_windows
  else store

/-- `worker.process_csvs_to_windows` over one processing cycle: fold the
per-CSV step over the discovered files, then prune. -/
def process_csvs_to_windows (classify : Row → ClassifyOutcome)
    (use_model : Bool) (max_windows : Nat) (store : List WindowModel)
    (files : List CsvFile) : List WindowModel :=
  pruneWindows max_windows (files.foldl (process_one_csv classify use_model) store)

/-! ## JSON serialization of the file store
(`storage.Window.to_dict`, `storage._metrics_from_dict`,
`storage.load_windows`, `storage.save_windows`)

JSON values are modelled structurally; `json.dump`/`json.load` round-trip
ints, floats (exactly, via shortest-repr), strings, arrays and
insertion-ordered objects, so the byte-level encoding is not modelled. -/

/-- A JSON value.  Python ints and floats are distinct JSON-side types. -/
inductive JValue
  | null
  | str (s : String)
  | intVal (n : Int)
  | ratVal (q : ℚ)
  | obj (fields : List (String × JValue))
  | arr (items : List JValue)

/-- The serialized form of one `FeatureStats` value inside
`Window.to_dict`. -/
def FeatureStats.to_json (fs : FeatureStats) : JValue :=
  JValue.obj [("mean", JValue.ratVal fs.mean), ("min", JValue.ratVal fs.min),
              ("max", JValue.ratVal fs.max)]

/-- `storage.Window.to_dict`, with the fields in source order.  The
`replace(tzinfo=timezone.utc)` on the timestamps is the identity here
because `DateTime` values already denote UTC instants. -/
def Window.to_dict (w : Window) : JValue :=
  JValue.obj
    [("id", JValue.str w.id),
     ("metrics", JValue.obj
       [("start_time", JValue.str (iso_z w.metrics.start_time)),
        ("end_time", JValue.str (iso_z w.metrics.end_time)),
        ("total_flows", JValue.intVal w.metrics.total_flows),
        ("total_packets", JValue.intVal w.metrics.total_packets),
        ("benign_flows", JValue.intVal w.metrics.benign_flows),
        ("attack_flows", JValue.intVal w.metrics.attack_flows),
        ("unknown_flows", JValue.intVal w.metrics.unknown_flows),
        ("attacks_per_label", JValue.obj
          (w.metrics.attacks_per_label.map
            (fun p => (p.1, JValue.intVal p.2)))),
        ("total_payload_bytes", JValue.intVal w.metrics.total_payload_bytes),
        ("feature_stats", JValue.obj
          (w.metrics.feature_stats.map
            (fun p => (p.1, p.2.to_json))))]),
     ("llm_summary", JValue.str w.llm_summary)]

/-- Read a JSON number into the float-typed field of a dataclass (JSON ints
and floats both construct valid Python floats here). -/
def JValue.asNum : JValue → Option ℚ
  | JValue.intVal n => some (n : ℚ)
  | JValue.ratVal q => some q
  | _ => none

/-- Read a JSON int into an int-typed field.  (Python performs no type
check when assigning dataclass fields; the model restricts the field to its
declared `int` type.) -/
def JValue.asInt : JValue → Option Int
  | JValue.intVal n => some n
  | _ => none

/-- `FeatureStats(**stats)`: requires the keyword set to be exactly
`mean`/`min`/`max`; anything else raises `TypeError`. -/
def parse_stats_value : JValue → Option FeatureStats
  | JValue.obj fields =>
    if fields.length = 3 then do
      let mean ← (fields.lookup "mean").bind JValue.asNum
      let mn ← (fields.lookup "min").bind JValue.asNum
      let mx ← (fields.lookup "max").bind JValue.asNum
      return { mean := mean, min := mn, max := mx }
    else none
  | _ => none

/-- The `fs_dict` comprehension of `_metrics_from_dict`: parse every entry
of the serialized `feature_stats` object, failing the whole metrics record
if any entry fails. -/
def parse_feature_stats : List (String × JValue) →
    Option (List (String × FeatureStats))
  | [] => some []
  | (name, v) :: rest => do
    let fs ← parse_stats_value v
    let tl ← parse_feature_stats rest
    return (name, fs) :: tl

/-- The serialized `attacks_per_label` object read back (each value is an
int-typed count). -/
def parse_attacks_per_label : List (String × JValue) →
    Option (List (String × Int))
  | [] => some []
  | (name, v) :: rest => do
    let n ← v.asInt
    let tl ← parse_attacks_per_label rest
    return (name, n) :: tl

/-- `d.get(key, default)` for an int field. -/
def getIntD (d : List (String × JValue)) (key : String) (default : Int) :
    Option Int :=
  match d.lookup key with
  | none => some default
  | some v => v.asInt

/-- `storage._metrics_from_dict`: any exception (missing required key,
non-string timestamp, unparsable timestamp, malformed stats entry) makes
the whole record unusable (`none`), which `load_windows` then skips. -/
def _metrics_from_dict (d : List (String × JValue)) : Option WindowMetrics := do
  let fs ←
    match d.lookup "feature_stats" with
    | none => some []
    | some (JValue.obj fields) => parse_feature_stats fields
    | some _ => none
  let start_time ←
    match d.lookup "start_time" with
    | some (JValue.str s) => parse_ts s
    | _ => none
  let end_time ←
    match d.lookup "end_time" with
    | some (JValue.str s) => parse_ts s
    | _ => none
  let total_flows ← getIntD d "total_flows" 0
  let total_packets ← getIntD d "total_packets" 0
  let benign_flows ← getIntD d "benign_flows" 0
  let attack_flows ← getIntD d "attack_flows" 0
  let attacks_per_label ←
    match d.lookup "attacks_per_label" with
    | none => some []
    | some (JValue.obj fields) => parse_attacks_per_label fields
    | some _ => none
  let total_payload_bytes ← getIntD d "total_payload_bytes" 0
  let unknown_flows ← getIntD d "unknown_flows" 0
  return { start_time := start_time, end_time := end_time,
           total_flows := total_flows, total_packets := total_packets,
           benign_flows := benign_flows, attack_flows := attack_flows,
           attacks_per_label := attacks_per_label,
           total_payload_bytes := total_payload_bytes,
           feature_stats := fs, unknown_flows := unknown_flows }

/-- One iteration of the `for item in raw` loop of `storage.load_windows`:
parse the item into a `Window`, or fail (the item is then skipped). -/
def parse_window_item (item : JValue) : Option Window := do
  match item with
  | JValue.obj fields =>
    let md ←
      match fields.lookup "metrics" with
      | some (JValue.obj md) => some md
      | _ => none
    let metrics ← _metrics_from_dict md
    let idStr ←
      match fields.lookup "id" with
      | some (JValue.str s) => some s
      | _ => none
    let summary ←
      match fields.lookup "llm_summary" with
      | none => some ""
      | some (JValue.str s) => some s
      | some _ => none
    return { id := idStr, metrics := metrics, llm_summary := summary }
  | _ => none

/-- `storage.load_windows` on the decoded JSON list: parse each item,
skipping the ones that fail. -/
def load_windows_from (raw : List JValue) : List Window :=
  raw.filterMap parse_window_item

/-- `storage.save_windows` as the JSON list it writes. -/
def save_windows_json (windows : List Window) : List JValue :=
  windows.map Window.to_dict

/-- The contribution of one row to `total_packets`
(`int(pkt_val)` when present, otherwise nothing). -/
def packetsContrib (row : Row) : Int :=
  match _get_numeric_from_row row (aliasesFor "packets_count") with
  | some v => pyInt v
  | none => 0

/-- The contribution of one row to `total_payload_bytes`. -/
def payloadContrib (row : Row) : Int :=
  match _get_numeric_from_row row (aliasesFor "total_payload_bytes") with
  | some v => pyInt v
  | none => 0

/-! ## Example inputs used by witnesses and counterexamples -/

/-- Two concrete CSV rows. -/
def exRows : List Row :=
  [[("duration", Cell.num (1/2)), ("packets_count", Cell.num 10),
    ("total_payload_bytes", Cell.num 1000)],
   [("duration", Cell.num (3/2)), ("packets_count", Cell.absent),
    ("bytes_rate", Cell.bad)]]

/-- A concrete classifier behaviour: every row classifies as an attack. -/
def exClassify : Row → ClassifyOutcome :=
  fun _ => ClassifyOutcome.ok (some "DoS")

/-- A loaded model that answers "DoS" with probability 0.95. -/
def exMlModel : MlModel :=
  { classes := ["DoS", "Benign"],
    predict_proba := fun _ => Except.ok [19/20, 1/20] }

/-- A loaded model whose (sole) class label carries trailing whitespace. -/
def exStripModel : MlModel :=
  { classes := ["evil "], predict_proba := fun _ => Except.ok [1] }

/-- A concrete metrics record (no attack labels, 5-minute window). -/
def exMetrics : WindowMetrics :=
  { start_time := ⟨2024, 3, 5, 14, 30, 0, 0⟩,
    end_time := ⟨2024, 3, 5, 14, 35, 0, 0⟩,
    total_flows := 10, total_packets := 1234, benign_flows := 10,
    attack_flows := 0, attacks_per_label := [],
    total_payload_bytes := 1048576, feature_stats := [], unknown_flows := 0 }

/-- A store of three windows with distinct start times. -/
def exStore3 : List WindowModel :=
  [{ id := "window-20240301000000", start_time := 100, total_flows := 4,
     benign_flows := 4, attack_flows := 0, unknown_flows := 0,
     attacks_per_label := [] },
   { id := "window-20240301000500", start_time := 400, total_flows := 7,
     benign_flows := 7, attack_flows := 0, unknown_flows := 0,
     attacks_per_label := [] },
   { id := "window-20240301001000", start_time := 700, total_flows := 9,
     benign_flows := 9, attack_flows := 0, unknown_flows := 0,
     attacks_per_label := [] }]

/-- A persisted window with a 50% attack rate. -/
def exAlertWindow : WindowModel :=
  { id := "window-20240301000000", start_time := 1709251200,
    total_flows := 100, benign_flows := 50, attack_flows := 50,
    unknown_flows := 0, attacks_per_label := [("DoS", 50)] }

/-- A stored window with valid UTC timestamps, one with a microsecond
component and one without. -/
def exStoreWindow : Window :=
  { id := "w-20240305143000",
    metrics :=
      { start_time := ⟨2024, 3, 5, 14, 30, 9, 0⟩,
        end_time := ⟨2024, 3, 5, 14, 35, 9, 123456⟩,
        total_flows := 10, total_packets := 1234, benign_flows := 5,
        attack_flows := 4, attacks_per_label := [("DoS", 3), ("Scan", 1)],
        total_payload_bytes := 1048576,
        feature_stats := [("duration", { mean := 1, min := 0, max := 2 })],
        unknown_flows := 1 },
    llm_summary := "traffic was mostly benign" }

/-! # Theorems -/

/-! ### Shared helper lemmas about alert lists -/

lemma countTitle_append (l₁ l₂ : List AlertModel) (t : String) :
    countTitle (l₁ ++ l₂) t = countTitle l₁ t + countTitle l₂ t := by
  simp [countTitle, List.filter_append]

lemma countTitle_map_eq_zero {α : Type} (f : α → AlertModel) (l : List α)
    (t : String) (h : ∀ x, (f x).title ≠ t) : countTitle (l.map f) t = 0 := by
  simp only [countTitle, List.filter_map, List.length_map, List.length_eq_zero]
  exact List.filter_eq_nil_iff.mpr (fun a _ => by simp [Function.comp, h a])

lemma countTitle_label_alerts (w : WindowModel) (t : String)
    (h : ∀ label, ("Elevated: " ++ label ++ " Activity") ≠ t) :
    countTitle ((w.attacks_per_label.filter (fun p => 10 ≤ p.2)).map
      (fun p =>
        ({ window_id := w.id, alert_type := "elevated", severity := "medium",
           title := "Elevated: " ++ p.1 ++ " Activity" } : AlertModel))) t = 0 :=
  countTitle_map_eq_zero _ _ _ (fun p => h p.1)

lemma label_title_ne_critical (label : String) :
    ("Elevated: " ++ label ++ " Activity") ≠
      "Critical: High Attack Rate Detected" := by
  intro h
  have hd := congrArg String.data h
  simp [String.data_append] at hd

lemma label_title_ne_elevated_attack (label : String) :
    ("Elevated: " ++ label ++ " Activity") ≠
      "Elevated: Attack Activity Detected" := by
  intro h
  have hd := congrArg (fun s : String => s.data.reverse) h
  simp [String.data_append, List.reverse_append] at hd

lemma label_title_ne_unknown_rate (label : String) :
    ("Elevated: " ++ label ++ " Activity") ≠
      "Elevated: High Unknown Flow Rate" := by
  intro h
  have hd := congrArg (fun s : String => s.data.reverse) h
  simp [String.data_append, List.reverse_append] at hd

/-! ### Shared helper lemmas about the aggregation loop -/

lemma summariseStep_flows_count (c : Row → ClassifyOutcome) (um : Bool)
    (st : SummariseState) (row : Row) :
    (summariseStep c um st row).flows_count = st.flows_count + 1 := by
  unfold summariseStep
  repeat' split <;> try rfl

lemma summariseStep_counts_sum (c : Row → ClassifyOutcome)
    (st : SummariseState) (row : Row) (h : c row ≠ ClassifyOutcome.ok none) :
    (summariseStep c true st row).benign_flows +
      (summariseStep c true st row).attack_flows +
      (summariseStep c true st row).unknown_flows =
    st.benign_flows + st.attack_flows + st.unknown_flows + 1 := by
  cases h1 : _get_numeric_from_row row (aliasesFor "packets_count") <;>
  cases h2 : _get_numeric_from_row row (aliasesFor "total_payload_bytes") <;>
  rcases hc : c row with ⟨_ | label⟩ | _ <;>
  simp [summariseStep, h1, h2, hc] <;>
  first
  | omega
  | (exact absurd hc h)
  | (split_ifs <;> simp <;> omega)

lemma foldl_counts_sum (c : Row → ClassifyOutcome) (rows : List Row) :
    ∀ st : SummariseState, (∀ r ∈ rows, c r ≠ ClassifyOutcome.ok none) →
    (rows.foldl (summariseStep c true) st).benign_flows +
      (rows.foldl (summariseStep c true) st).attack_flows +
      (rows.foldl (summariseStep c true) st).unknown_flows +
      st.flows_count =
    st.benign_flows + st.attack_flows + st.unknown_flows +
      (rows.foldl (summariseStep c true) st).flows_count := by
  induction rows with
  | nil => intro st _; simp
  | cons r rest ih =>
    intro st h
    simp only [List.foldl_cons]
    have h1 := summariseStep_counts_sum c st r (h r (by simp))
    have h2 := summariseStep_flows_count c true st r
    have h3 := ih (summariseStep c true st r) (fun x hx => h x (by simp [hx]))
    omega

lemma foldl_flows_count (c : Row → ClassifyOutcome) (um : Bool)
    (rows : List Row) : ∀ st : SummariseState,
    (rows.foldl (summariseStep c um) st).flows_count =
      st.flows_count + rows.length := by
  induction rows with
  | nil => intro st; simp
  | cons r rest ih =>
    intro st
    simp only [List.foldl_cons, List.length_cons]
    rw [ih, summariseStep_flows_count]
    omega

/-- The flow count reported by the aggregation pass is the row count of the
file, whatever the classifier does. -/
lemma summarise_flows_count (rows : List Row) (c : Row → ClassifyOutcome)
    (um : Bool) :
    (summarise_features_and_ml rows c um).flows_count = rows.length := by
  cases um <;> simp [summarise_features_and_ml, foldl_flows_count,
    initSummariseState]

lemma mem_save_window_to_db {store : List WindowModel} {w x : WindowModel}
    (h : x ∈ save_window_to_db store w) : x ∈ store ∨ x = w := by
  unfold save_window_to_db at h
  split at h
  · rcases List.mem_map.mp h with ⟨y, hy, hxy⟩
    by_cases hid : y.id = w.id
    · simp only [if_pos hid] at hxy
      exact Or.inr hxy.symm
    · simp only [if_neg hid] at hxy
      exact Or.inl (hxy ▸ hy)
  · rcases List.mem_append.mp h with h' | h'
    · exact Or.inl h'
    · simp at h'
      exact Or.inr h'

lemma mem_pruneWindows {mx : Nat} {store : List WindowModel}
    {x : WindowModel} (h : x ∈ pruneWindows mx store) : x ∈ store := by
  simp only [pruneWindows] at h
  split at h
  · exact ((List.mergeSort_perm store _).mem_iff).mp (List.mem_of_mem_take h)
  · exact h

/-! ### C1 — the two attack-rate rules are mutually exclusive with an
inclusive 50% boundary -/

/-- **C1.** For every window with `total_flows > 0` and alerts enabled:
if `attack_flows/total_flows ≥ 1/2`, `check_and_create_alerts` emits
exactly one critical attack-rate alert and no elevated attack-rate alert;
if `configured_attack_threshold ≤ attack_flows/total_flows < 1/2`
(threshold as a percentage, default 10), it emits exactly one
elevated attack-rate alert and no critical one. -/
theorem attack_rate_alert_rules_mutually_exclusive (w : WindowModel)
    (cfg : PublicAlertsConfig) (hen : cfg.enable_public_alerts = true)
    (hpos : 0 < w.total_flows) :
    ((1 / 2 : ℚ) ≤ (w.attack_flows : ℚ) / (w.total_flows : ℚ) →
      countTitle (check_and_create_alerts w cfg)
        "Critical: High Attack Rate Detected" = 1 ∧
      countTitle (check_and_create_alerts w cfg)
        "Elevated: Attack Activity Detected" = 0) ∧
    (cfg.alert_threshold_attack_percent / 100 ≤
        (w.attack_flows : ℚ) / (w.total_flows : ℚ) →
      (w.attack_flows : ℚ) / (w.total_flows : ℚ) < 1 / 2 →
      countTitle (check_and_create_alerts w cfg)
        "Elevated: Attack Activity Detected" = 1 ∧
      countTitle (check_and_create_alerts w cfg)
        "Critical: High Attack Rate Detected" = 0) := by
  have hne : ¬ (w.total_flows = 0) := Nat.pos_iff_ne_zero.mp hpos
  have hen' : ¬ (cfg.enable_public_alerts = false) := by simp [hen]
  constructor
  · intro h50
    have hp : ((w.attack_flows : ℚ) / (w.total_flows : ℚ) * 100) ≥ 50 := by
      nlinarith
    simp only [check_and_create_alerts, if_neg hen', if_neg hne, if_pos hp]
    simp only [countTitle_append,
      countTitle_label_alerts w _ (fun l => label_title_ne_critical l),
      countTitle_label_alerts w _ (fun l => label_title_ne_elevated_attack l)]
    by_cases hu : ((w.unknown_flows : ℚ) / (w.total_flows : ℚ) * 100) ≥
      cfg.alert_threshold_unknown_percent <;>
    by_cases hv : w.total_flows ≥ cfg.alert_threshold_flow_count <;>
    simp +decide [hu, hv, countTitle]
  · intro hthr hlt
    have hp : ¬ (((w.attack_flows : ℚ) / (w.total_flows : ℚ) * 100) ≥ 50) := by
      push_neg
      nlinarith
    have hp2 : ((w.attack_flows : ℚ) / (w.total_flows : ℚ) * 100) ≥
        cfg.alert_threshold_attack_percent := by nlinarith
    simp only [check_and_create_alerts, if_neg hen', if_neg hne, if_neg hp,
      if_pos hp2]
    simp only [countTitle_append,
      countTitle_label_alerts w _ (fun l => label_title_ne_critical l),
      countTitle_label_alerts w _ (fun l => label_title_ne_elevated_attack l)]
    by_cases hu : ((w.unknown_flows : ℚ) / (w.total_flows : ℚ) * 100) ≥
      cfg.alert_threshold_unknown_percent <;>
    by_cases hv : w.total_flows ≥ cfg.alert_threshold_flow_count <;>
    simp +decide [hu, hv, countTitle]

/-- Witness for C1 at a concrete window: 50 attack flows out of 100 under
the default configuration yield exactly one critical and no elevated
attack-rate alert. -/
theorem attack_rate_alert_rules_mutually_exclusive_witness :
    countTitle (check_and_create_alerts exAlertWindow defaultAlertsConfig)
      "Critical: High Attack Rate Detected" = 1 ∧
    countTitle (check_and_create_alerts exAlertWindow defaultAlertsConfig)
      "Elevated: Attack Activity Detected" = 0 :=
  (attack_rate_alert_rules_mutually_exclusive exAlertWindow
    defaultAlertsConfig rfl (by decide)).1 (by norm_num [exAlertWindow])

/-! ### C2 — classification counts partition the flow count -/

/-- **C2.** For every feature file processed with classification enabled
(the model stays loaded, so `classify_row` never returns `None`),
`benign_flows + attack_flows + unknown_flows = total_flows`; with
classification disabled or the model unavailable (`use_model = false`),
every flow counts as benign, the attack and unknown counts are zero and
the label histogram is empty. -/
theorem summarise_counts_partition (rows : List Row)
    (classify : Row → ClassifyOutcome) :
    ((∀ r ∈ rows, classify r ≠ ClassifyOutcome.ok none) →
      (summarise_features_and_ml rows classify true).benign_flows +
        (summarise_features_and_ml rows classify true).attack_flows +
        (summarise_features_and_ml rows classify true).unknown_flows =
      (summarise_features_and_ml rows classify true).flows_count) ∧
    ((summarise_features_and_ml rows classify false).benign_flows =
        (summarise_features_and_ml rows classify false).flows_count ∧
      (summarise_features_and_ml rows classify false).attack_flows = 0 ∧
      (summarise_features_and_ml rows classify false).unknown_flows = 0 ∧
      (summarise_features_and_ml rows classify false).attacks_per_label = []) := by
  constructor
  · intro h
    have := foldl_counts_sum classify rows initSummariseState h
    simp only [summarise_features_and_ml, initSummariseState] at *
    simpa using this
  · simp [summarise_features_and_ml]

/-- Witness for C2 at two concrete rows and an always-attack classifier. -/
theorem summarise_counts_partition_witness :
    (summarise_features_and_ml exRows exClassify true).benign_flows +
      (summarise_features_and_ml exRows exClassify true).attack_flows +
      (summarise_features_and_ml exRows exClassify true).unknown_flows =
    (summarise_features_and_ml exRows exClassify true).flows_count :=
  (summarise_counts_partition exRows exClassify).1 (by decide)

/-! ### C4 — a zero-row feature file never persists a window -/

/-- **C4.** A feature file with 0 rows leaves the window store unchanged
(no record is persisted for its identifier), and consequently a store in
which every window has a positive flow count keeps that property across a
whole processing cycle: no persisted window ever has `total_flows = 0`. -/
theorem zero_row_file_never_persisted (classify : Row → ClassifyOutcome)
    (use_model : Bool) :
    (∀ (store : List WindowModel) (id : String) (t : Int),
      process_one_csv classify use_model store ⟨id, t, []⟩ = store) ∧
    (∀ (store : List WindowModel) (files : List CsvFile) (max_windows : Nat),
      (∀ w ∈ store, w.total_flows ≠ 0) →
      ∀ w ∈ process_csvs_to_windows classify use_model max_windows store files,
        w.total_flows ≠ 0) := by
  constructor
  · intro store id t
    unfold process_one_csv
    split
    · rfl
    · rw [if_pos]
      rw [summarise_flows_count]
      rfl
  · intro store files max_windows hstore w hw
    have hfold : ∀ w ∈ files.foldl (process_one_csv classify use_model) store,
        w.total_flows ≠ 0 := by
      clear hw
      induction files generalizing store with
      | nil => simpa using hstore
      | cons f rest ih =>
        intro w hw
        simp only [List.foldl_cons] at hw
        refine ih (process_one_csv classify use_model store f) ?_ w hw
        intro x hx
        simp only [process_one_csv] at hx
        split at hx
        · exact hstore x hx
        · split at hx
          · exact hstore x hx
          · rcases mem_save_window_to_db hx with h' | h'
            · exact hstore x h'
            · subst h'
              simpa [windowModelOfSummary] using by assumption
    exact hfold w (mem_pruneWindows hw)

unseal List.merge List.mergeSort in
/-- Witness for C4: processing an empty feature file over a store holding
one positive window leaves every stored window with a positive flow
count. -/
theorem zero_row_file_never_persisted_witness :
    exAlertWindow.total_flows ≠ 0 :=
  (zero_row_file_never_persisted exClassify true).2 [exAlertWindow]
    [⟨"window-20240301000500", 1709251500, []⟩] 12 (by decide)
    exAlertWindow (by decide)

/-! ### C5 — prune retains exactly the `keep_n` most recent windows -/

/-- **C5.** After prune, the store holds exactly
`min(total_windows, keep_n)` windows, all drawn from the pre-prune store,
and every window dropped by the prune has a start time no later than every
window it retained (i.e. the retained ones are the most recent by start
time); dropped windows are gone from the store. -/
theorem prune_retains_most_recent (keep_n : Nat)
    (store : List WindowModel) :
    (pruneWindows keep_n store).length = min store.length keep_n ∧
    (∀ w ∈ pruneWindows keep_n store, w ∈ store) ∧
    (∀ w ∈ pruneWindows keep_n store, ∀ v ∈ store,
      v ∉ pruneWindows keep_n store → v.start_time ≤ w.start_time) := by
  have hperm := List.mergeSort_perm store
    (fun a b : WindowModel => decide (b.start_time ≤ a.start_time))
  have hlen := hperm.length_eq
  have hsorted := @List.sorted_mergeSort WindowModel
    (fun a b : WindowModel => decide (b.start_time ≤ a.start_time))
    (fun a b c h₁ h₂ => by
      simp only [decide_eq_true_eq] at *
      exact le_trans h₂ h₁)
    (fun a b => by
      simp only [Bool.or_eq_true, decide_eq_true_eq]
      exact le_total b.start_time a.start_time)
    store
  refine ⟨?_, fun w hw => mem_pruneWindows hw, ?_⟩
  · simp only [pruneWindows]
    split
    · rw [List.length_take]
      omega
    · omega
  · intro w hw v hv hvn
    simp only [pruneWindows] at hw hvn
    by_cases hcond : keep_n <
        (store.mergeSort (fun a b => decide (b.start_time ≤ a.start_time))).length
    · rw [if_pos hcond] at hw hvn
      have hvs : v ∈ store.mergeSort
          (fun a b => decide (b.start_time ≤ a.start_time)) :=
        hperm.mem_iff.mpr hv
      rw [← List.take_append_drop keep_n
        (store.mergeSort (fun a b => decide (b.start_time ≤ a.start_time)))]
        at hvs hsorted
      rcases List.mem_append.mp hvs with h' | h'
      · exact absurd h' hvn
      · have := (List.pairwise_append.mp hsorted).2.2 w hw v h'
        simpa using this
    · rw [if_neg hcond] at hvn
      exact absurd hv hvn

unseal List.merge List.mergeSort in
/-- Witness for C5: pruning a three-window store to two windows leaves
exactly two. -/
theorem prune_retains_most_recent_witness :
    (pruneWindows 2 exStore3).length = 2 := by
  simpa using (prune_retains_most_recent 2 exStore3).1

/-! ### C6 — narrative enrichment falls back to the deterministic summary -/

lemma join_with_length_ge (sep x : String) (xs : List String) :
    x.length ≤ (join_with sep (x :: xs)).length := by
  suffices h : ∀ a : String,
      a.length ≤ (xs.foldl (fun acc y => acc ++ sep ++ y) a).length by
    simpa [join_with] using h x
  induction xs with
  | nil => intro a; simp
  | cons y ys ih =>
    intro a
    simp only [List.foldl_cons]
    calc a.length ≤ (a ++ sep ++ y).length := by
          simp only [String.length_append]
          omega
      _ ≤ _ := ih (a ++ sep ++ y)

/-- The deterministic narrative always begins with the window header, so
it is a non-empty string for every metrics record. -/
lemma build_rule_based_summary_ne_empty (window_id : String)
    (m : WindowMetrics) : 0 < (build_rule_based_summary window_id m).length := by
  have h8 : ("Window: ").length = 8 := rfl
  simp only [build_rule_based_summary]
  split_ifs <;>
  · refine lt_of_lt_of_le ?_ (join_with_length_ge _ _ _)
    simp only [String.length_append]
    omega

/-- **C6.** For every window's metrics: with enrichment disabled the
narrative is the deterministic rule-based summary; with enrichment enabled,
a transport error, a `None` result or an empty result each yield the
deterministic summary unchanged and increment the `llm_failed` counter; and
the deterministic summary itself is total and non-empty. -/
theorem narrative_falls_back_to_rule_based (window_id : String)
    (m : WindowMetrics) (llm : String → LlmResult) :
    (generate_llm_summary false llm window_id m =
      (build_rule_based_summary window_id m, false)) ∧
    (llm (llm_prompt (build_rule_based_summary window_id m)) =
        LlmResult.err →
      generate_llm_summary true llm window_id m =
        (build_rule_based_summary window_id m, true)) ∧
    (llm (llm_prompt (build_rule_based_summary window_id m)) =
        LlmResult.ok none →
      generate_llm_summary true llm window_id m =
        (build_rule_based_summary window_id m, true)) ∧
    (llm (llm_prompt (build_rule_based_summary window_id m)) =
        LlmResult.ok (some "") →
      generate_llm_summary true llm window_id m =
        (build_rule_based_summary window_id m, true)) ∧
    0 < (build_rule_based_summary window_id m).length := by
  refine ⟨by simp [generate_llm_summary], ?_, ?_, ?_,
    build_rule_based_summary_ne_empty window_id m⟩ <;>
  · intro h
    simp [generate_llm_summary, h]

/-- Witness for C6: a timed-out enrichment call on a concrete metrics
record returns exactly the deterministic summary and counts one failure. -/
theorem narrative_falls_back_to_rule_based_witness :
    generate_llm_summary true (fun _ => LlmResult.err) "window-20240305143000"
        exMetrics =
      (build_rule_based_summary "window-20240305143000" exMetrics, true) :=
  (narrative_falls_back_to_rule_based "window-20240305143000" exMetrics
    (fun _ => LlmResult.err)).2.1 rfl

/-! ### C7 — extraction retry budget: non-zero exits retry, timeouts do
not -/

lemma run_nonzero_exhausts (max_retries retry_delay : Nat)
    (attempts : Nat → AttemptOutcome) :
    ∀ d k, max_retries - k = d → k ≤ max_retries →
    (∀ i, k ≤ i → i ≤ max_retries → attempts i = AttemptOutcome.nonzeroExit) →
    run_ntlflowlyzer_for_pcap max_retries retry_delay attempts k =
      (false, d + 1, d * retry_delay) := by
  intro d
  induction d with
  | zero =>
    intro k hd hk h
    rw [run_ntlflowlyzer_for_pcap, h k le_rfl hk]
    have : ¬ (k < max_retries) := by omega
    simp [this]
  | succ n ih =>
    intro k hd hk h
    rw [run_ntlflowlyzer_for_pcap, h k le_rfl hk]
    have hlt : k < max_retries := by omega
    rw [if_pos hlt]
    rw [ih (k + 1) (by omega) (by omega) (fun i h1 h2 => h i (by omega) h2)]
    simp
    ring

/-- **C7 counterexample.** With `max_retries = 3` and `retry_delay = 5`:
a persistently timing-out extraction tool is invoked exactly once, with no
retry and no delay — not the four invocations (one initial plus three
retries) the claim requires for a failed attempt that "counts toward the
retry budget"; a persistently non-zero-exiting tool, by contrast, is
invoked exactly four times with three delays. -/
theorem extraction_timeout_not_retried_counterexample :
    run_ntlflowlyzer_for_pcap 3 5 (fun _ => AttemptOutcome.timeoutExpired) 0 =
      (false, 1, 0) ∧
    run_ntlflowlyzer_for_pcap 3 5 (fun _ => AttemptOutcome.nonzeroExit) 0 =
      (false, 4, 15) ∧
    (1 : Nat) ≠ 3 + 1 := by
  refine ⟨by simp [run_ntlflowlyzer_for_pcap], by
    simp [run_ntlflowlyzer_for_pcap], by decide⟩

/-- **C7 amended.** Only a non-zero exit counts toward the bounded retry
budget: with every attempt exiting non-zero the tool is re-invoked up to
`max_retries` times (so `max_retries + 1` invocations in total) with a
fixed delay before each retry, after which the call reports failure (the
`RuntimeError` raised after exhaustion is caught by the call's own
`except` handler), leaving the segment unconverted for the next tick.  A
timeout fails the call immediately: one invocation, no retry, no delay,
and the segment is likewise left unconverted. -/
theorem extraction_retry_discipline (max_retries retry_delay : Nat)
    (attempts : Nat → AttemptOutcome) :
    ((∀ i, i ≤ max_retries → attempts i = AttemptOutcome.nonzeroExit) →
      run_ntlflowlyzer_for_pcap max_retries retry_delay attempts 0 =
        (false, max_retries + 1, max_retries * retry_delay)) ∧
    (∀ k, attempts k = AttemptOutcome.timeoutExpired →
      run_ntlflowlyzer_for_pcap max_retries retry_delay attempts k =
        (false, 1, 0)) ∧
    (∀ k, attempts k = AttemptOutcome.success →
      run_ntlflowlyzer_for_pcap max_retries retry_delay attempts k =
        (true, 1, 0)) := by
  refine ⟨fun h => ?_, fun k hk => ?_, fun k hk => ?_⟩
  · exact run_nonzero_exhausts max_retries retry_delay attempts max_retries 0
      (by omega) (by omega) (fun i _ h2 => h i h2)
  · rw [run_ntlflowlyzer_for_pcap, hk]
  · rw [run_ntlflowlyzer_for_pcap, hk]

/-- Witness for the amended C7 at `max_retries = 3`, `retry_delay = 5`. -/
theorem extraction_retry_discipline_witness :
    run_ntlflowlyzer_for_pcap 3 5 (fun _ => AttemptOutcome.nonzeroExit) 0 =
      (false, 3 + 1, 3 * 5) :=
  (extraction_retry_discipline 3 5 (fun _ => AttemptOutcome.nonzeroExit)).1
    (fun _ _ => rfl)

/-! ### C3 — threshold verdicts and label canonicalization in
`classify_row` -/

lemma argmax_foldl_spec (l : List ℚ) (is : List Nat) :
    ∀ b : Nat,
    (is.foldl (fun best i => if l.getD best 0 < l.getD i 0 then i else best) b = b ∨
      is.foldl (fun best i => if l.getD best 0 < l.getD i 0 then i else best) b ∈ is) ∧
    l.getD b 0 ≤
      l.getD (is.foldl (fun best i => if l.getD best 0 < l.getD i 0 then i else best) b) 0 ∧
    (∀ i ∈ is,
      l.getD i 0 ≤
        l.getD (is.foldl (fun best i => if l.getD best 0 < l.getD i 0 then i else best) b) 0) := by
  induction is with
  | nil => intro b; simp
  | cons j js ih =>
    intro b
    simp only [List.foldl_cons]
    by_cases hj : l.getD b 0 < l.getD j 0
    · rw [if_pos hj]
      rcases ih j with ⟨hmem, hble, hall⟩
      refine ⟨?_, le_trans (le_of_lt hj) hble, ?_⟩
      · rcases hmem with h | h
        · exact Or.inr (by rw [h]; exact List.mem_cons_self j js)
        · exact Or.inr (List.mem_cons_of_mem j h)
      · intro i hi
        rcases List.mem_cons.mp hi with rfl | hi'
        · exact hble
        · exact hall i hi'
    · rw [if_neg hj]
      rcases ih b with ⟨hmem, hble, hall⟩
      refine ⟨?_, hble, ?_⟩
      · rcases hmem with h | h
        · exact Or.inl h
        · exact Or.inr (List.mem_cons_of_mem j h)
      · intro i hi
        rcases List.mem_cons.mp hi with rfl | hi'
        · exact le_trans (le_of_not_lt hj) hble
        · exact hall i hi'

lemma argmax_first_lt_length (l : List ℚ) (h : l ≠ []) :
    argmax_first l < l.length := by
  have := (argmax_foldl_spec l (List.range l.length) 0).1
  rcases this with h0 | hmem
  · rw [argmax_first, h0]
    exact List.length_pos.mpr h
  · exact List.mem_range.mp hmem

/-- The probability `classify_row` compares with the threshold is the
largest class probability. -/
lemma argmax_first_is_max (l : List ℚ) :
    ∀ p ∈ l, p ≤ l.getD (argmax_first l) 0 := by
  intro p hp
  rcases List.mem_iff_get.mp hp with ⟨i, rfl⟩
  have := (argmax_foldl_spec l (List.range l.length) 0).2.2 i.val
    (List.mem_range.mpr i.isLt)
  rw [argmax_first]
  rw [List.getD_eq_getElem l 0 i.isLt] at this
  simpa using this

lemma argmax_first_getD_mem (l : List ℚ) (h : l ≠ []) :
    l.getD (argmax_first l) 0 ∈ l := by
  have hlt := argmax_first_lt_length l h
  rw [List.getD_eq_getElem l 0 hlt]
  exact List.getElem_mem hlt

/-- **C3 counterexample.** An attack label is not passed through verbatim:
a model whose winning class is `"evil "` (trailing space, probability 1)
yields the verdict `"evil"` — `_normalize_label` strips surrounding
whitespace from every label before returning it. -/
theorem classify_row_strips_label_counterexample :
    classify_row exStripModel [] = "evil" ∧ "evil" ≠ "evil " := by
  refine ⟨?_, by decide⟩
  have hthr : ¬ (([(1 : ℚ)].getD (argmax_first [(1 : ℚ)]) 0) < ML_THRESHOLD) := by
    norm_num [argmax_first, List.range_succ, ML_THRESHOLD]
  simp only [classify_row, exStripModel]
  rw [show feature_vector_of_row [] FEATURE_COLUMNS =
    Except.ok (List.replicate 20 (0 : ℚ)) from rfl]
  show (if [(1 : ℚ)].getD (argmax_first [(1 : ℚ)]) 0 < ML_THRESHOLD
    then "Unknown" else _normalize_label "evil ") = "evil"
  rw [if_neg hthr]
  decide

/-- **C3 amended.** For every row classified with a loaded model whose
prediction succeeds: if every class probability is below the threshold
(default 0.90 — in particular if the highest is) the verdict is `Unknown`
regardless of which class won; otherwise the winning label is returned,
canonicalized to `Benign` whenever it is spelled benign/normal/background
(case-insensitively, surrounding whitespace ignored) and otherwise passed
through with surrounding whitespace stripped (verbatim for labels without
surrounding whitespace).  The probability compared with the threshold is
maximal among the class probabilities.  A per-row classification error
(unparsable cell or model exception) yields `Unknown`, and no classifier
behaviour aborts the window: the aggregation pass still counts every row
of the file. -/
theorem classify_row_verdict (m : MlModel) (row : Row) (x probs : List ℚ)
    (raw : String)
    (hx : feature_vector_of_row row FEATURE_COLUMNS = Except.ok x)
    (hp : m.predict_proba x = Except.ok probs)
    (hne : probs ≠ [])
    (hcl : m.classes.get? (argmax_first probs) = some raw) :
    ((∀ p ∈ probs, p < ML_THRESHOLD) → classify_row m row = "Unknown") ∧
    (ML_THRESHOLD ≤ probs.getD (argmax_first probs) 0 →
      classify_row m row =
        (if pyLower (pyStrip raw) = "benign" ∨
            pyLower (pyStrip raw) = "normal" ∨
            pyLower (pyStrip raw) = "background"
         then "Benign" else pyStrip raw)) ∧
    (∀ p ∈ probs, p ≤ probs.getD (argmax_first probs) 0) ∧
    (∀ row2 : Row,
      feature_vector_of_row row2 FEATURE_COLUMNS = Except.error () →
      classify_row m row2 = "Unknown") ∧
    (∀ (row2 : Row) (x2 : List ℚ),
      feature_vector_of_row row2 FEATURE_COLUMNS = Except.ok x2 →
      m.predict_proba x2 = Except.error () →
      classify_row m row2 = "Unknown") ∧
    (∀ (rows : List Row) (c : Row → ClassifyOutcome),
      (summarise_features_and_ml rows c true).flows_count = rows.length) := by
  have hemp : probs.isEmpty = false := by
    cases probs with
    | nil => exact absurd rfl hne
    | cons a l => rfl
  refine ⟨?_, ?_, argmax_first_is_max probs, ?_, ?_, ?_⟩
  · intro h
    have hmax : probs.getD (argmax_first probs) 0 < ML_THRESHOLD :=
      h _ (argmax_first_getD_mem probs hne)
    simp only [classify_row, hx, hp, hemp, Bool.false_eq_true, if_false, hcl,
      if_pos hmax]
  · intro h2
    have hnl : ¬ (probs.getD (argmax_first probs) 0 < ML_THRESHOLD) :=
      not_lt.mpr h2
    simp only [classify_row, hx, hp, hemp, Bool.false_eq_true, if_false, hcl,
      if_neg hnl, _normalize_label, BENIGN_LABEL_CANONICAL]
  · intro row2 h
    simp only [classify_row, h]
  · intro row2 x2 h1 h2
    simp only [classify_row, h1, h2]
  · intro rows c
    exact summarise_flows_count rows c true

/-- Witness for the amended C3: the model answering "DoS" at probability
0.95 classifies a row as "DoS". -/
theorem classify_row_verdict_witness : classify_row exMlModel [] = "DoS" := by
  have harg : argmax_first [(19 : ℚ)/20, 1/20] = 0 := by
    norm_num [argmax_first, List.range_succ]
  rw [(classify_row_verdict exMlModel [] (List.replicate 20 0)
    [19/20, 1/20] "DoS" rfl rfl (by simp) (by rw [harg]; rfl)).2.1
    (by rw [harg]; norm_num [ML_THRESHOLD])]
  decide

/-! ### C8 — aggregation is deterministic; empty features omitted;
missing packet/payload values contribute zero -/


lemma lookup_appendSeries (s : List (String × List ℚ)) (feat f : String)
    (v : ℚ) :
    (appendSeries s feat v).lookup f =
      (s.lookup f).map (fun l => if f = feat then l ++ [v] else l) := by
  induction s with
  | nil => rfl
  | cons p rest ih =>
    obtain ⟨k, l⟩ := p
    simp only [appendSeries] at ih ⊢
    rw [List.map_cons]
    by_cases hfk : f = k
    · subst hfk
      by_cases hk : f = feat
      · simp [List.lookup_cons, hk]
      · simp [List.lookup_cons, hk]
    · have hbeq : (f == k) = false := beq_false_of_ne hfk
      by_cases hk : k = feat
      · simp only [if_pos hk, List.lookup_cons, hbeq]
        exact ih
      · simp only [if_neg hk, List.lookup_cons, hbeq]
        exact ih

lemma appendSeries_keys (s : List (String × List ℚ)) (feat : String) (v : ℚ) :
    (appendSeries s feat v).map Prod.fst = s.map Prod.fst := by
  simp only [appendSeries, List.map_map]
  refine List.map_congr_left ?_
  intro p _
  by_cases h : p.1 = feat <;> simp [h]

lemma lookup_collect_aux (row : Row) (L : List String) (hL : L.Nodup) :
    ∀ (s : List (String × List ℚ)) (f : String),
    ((L.foldl (collectStep row) s).lookup f) =
      if f ∈ L then
        (s.lookup f).map (fun l =>
          l ++ (_get_numeric_from_row row (aliasesFor f)).toList)
      else s.lookup f := by
  induction L with
  | nil => intro s f; simp
  | cons a L' ih =>
    intro s f
    have hnd' : L'.Nodup := (List.nodup_cons.mp hL).2
    have hna : a ∉ L' := (List.nodup_cons.mp hL).1
    simp only [List.foldl_cons]
    by_cases hfa : f = a
    · subst hfa
      rw [ih hnd' _ f, if_neg (fun hc => hna hc)]
      cases hv : _get_numeric_from_row row (aliasesFor f) with
      | none =>
        simp [collectStep, hv, List.mem_cons]
      | some v =>
        simp [collectStep, hv, lookup_appendSeries, List.mem_cons]
    · rw [ih hnd' _ f]
      by_cases hfL : f ∈ L'
      · rw [if_pos hfL, if_pos (List.mem_cons_of_mem a hfL)]
        cases hv : _get_numeric_from_row row (aliasesFor a) with
        | none => simp [collectStep, hv]
        | some v => simp [collectStep, hv, lookup_appendSeries, hfa]
      · rw [if_neg hfL, if_neg (by simp [hfa, hfL])]
        cases hv : _get_numeric_from_row row (aliasesFor a) with
        | none => simp [collectStep, hv]
        | some v => simp [collectStep, hv, lookup_appendSeries, hfa]

lemma summariseStep_series (c : Row → ClassifyOutcome) (um : Bool)
    (st : SummariseState) (row : Row) :
    (summariseStep c um st row).series = collectFeatures row st.series := by
  unfold summariseStep
  repeat' split <;> try rfl

lemma lookup_collectFeatures (row : Row) (s : List (String × List ℚ))
    (f : String) (hf : f ∈ FEATURES_OF_INTEREST) :
    (collectFeatures row s).lookup f =
      (s.lookup f).map (fun l =>
        l ++ (_get_numeric_from_row row (aliasesFor f)).toList) := by
  rw [collectFeatures,
    lookup_collect_aux row FEATURES_OF_INTEREST (by decide) s f, if_pos hf]

lemma lookup_series_foldl (c : Row → ClassifyOutcome) (um : Bool)
    (rows : List Row) : ∀ (st : SummariseState) (f : String),
    f ∈ FEATURES_OF_INTEREST →
    ((rows.foldl (summariseStep c um) st).series).lookup f =
      (st.series.lookup f).map (fun l =>
        l ++ rows.filterMap (fun r => _get_numeric_from_row r (aliasesFor f))) := by
  induction rows with
  | nil =>
    intro st f _
    simp
  | cons r rest ih =>
    intro st f hf
    simp only [List.foldl_cons]
    rw [ih _ f hf, summariseStep_series, lookup_collectFeatures r _ f hf]
    cases hv : _get_numeric_from_row r (aliasesFor f) <;>
      cases st.series.lookup f <;> simp [hv]

lemma lookup_init_series (L : List String) (f : String) :
    (L.map (fun x => (x, ([] : List ℚ)))).lookup f =
      if f ∈ L then some [] else none := by
  induction L with
  | nil => rfl
  | cons a L' ih =>
    by_cases hfa : f = a
    · subst hfa
      simp [List.lookup_cons]
    · simp [List.lookup_cons, beq_false_of_ne hfa, ih, hfa]

lemma collectFeatures_keys (row : Row) (s : List (String × List ℚ)) :
    (collectFeatures row s).map Prod.fst = s.map Prod.fst := by
  rw [collectFeatures]
  induction FEATURES_OF_INTEREST generalizing s with
  | nil => rfl
  | cons a L ih =>
    simp only [List.foldl_cons]
    cases hv : _get_numeric_from_row row (aliasesFor a) with
    | none =>
      rw [show collectStep row s a = s by simp [collectStep, hv]]
      exact ih s
    | some v =>
      rw [show collectStep row s a = appendSeries s a v by
        simp [collectStep, hv]]
      rw [ih (appendSeries s a v), appendSeries_keys]

lemma foldl_series_keys (c : Row → ClassifyOutcome) (um : Bool)
    (rows : List Row) : ∀ st : SummariseState,
    ((rows.foldl (summariseStep c um) st).series).map Prod.fst =
      st.series.map Prod.fst := by
  induction rows with
  | nil => intro st; rfl
  | cons r rest ih =>
    intro st
    simp only [List.foldl_cons]
    rw [ih, summariseStep_series, collectFeatures_keys]

lemma lookup_featureStatsOf_not_mem (s : List (String × List ℚ)) (f : String)
    (hf : f ∉ s.map Prod.fst) : (featureStatsOf s).lookup f = none := by
  induction s with
  | nil => rfl
  | cons p rest ih =>
    obtain ⟨k, l⟩ := p
    simp only [List.map_cons, List.mem_cons, not_or] at hf
    obtain ⟨hfk, hfr⟩ := hf
    cases l with
    | nil => exact ih hfr
    | cons v vs =>
      rw [show featureStatsOf ((k, v :: vs) :: rest) =
        (k, statsOf v vs) :: featureStatsOf rest from rfl]
      simp only [List.lookup_cons, beq_false_of_ne hfk]
      exact ih hfr

lemma lookup_featureStatsOf (s : List (String × List ℚ))
    (hnd : (s.map Prod.fst).Nodup) (f : String) :
    (featureStatsOf s).lookup f = (s.lookup f).bind (fun l =>
      match l with
      | [] => none
      | v :: vs => some (statsOf v vs)) := by
  induction s with
  | nil => rfl
  | cons p rest ih =>
    obtain ⟨k, l⟩ := p
    simp only [List.map_cons, List.nodup_cons] at hnd
    obtain ⟨hk, hnd'⟩ := hnd
    by_cases hfk : f = k
    · subst hfk
      cases l with
      | nil =>
        rw [show featureStatsOf ((f, ([] : List ℚ)) :: rest) =
          featureStatsOf rest from rfl]
        rw [lookup_featureStatsOf_not_mem rest f hk]
        simp [List.lookup_cons]
      | cons v vs =>
        rw [show featureStatsOf ((f, v :: vs) :: rest) =
          (f, statsOf v vs) :: featureStatsOf rest from rfl]
        simp [List.lookup_cons]
    · cases l with
      | nil =>
        rw [show featureStatsOf ((k, ([] : List ℚ)) :: rest) =
          featureStatsOf rest from rfl]
        rw [ih hnd']
        simp [List.lookup_cons, beq_false_of_ne hfk]
      | cons v vs =>
        rw [show featureStatsOf ((k, v :: vs) :: rest) =
          (k, statsOf v vs) :: featureStatsOf rest from rfl]
        simp only [List.lookup_cons, beq_false_of_ne hfk]
        exact ih hnd'

lemma summariseStep_total_packets (c : Row → ClassifyOutcome) (um : Bool)
    (st : SummariseState) (row : Row) :
    (summariseStep c um st row).total_packets =
      st.total_packets + packetsContrib row := by
  cases h1 : _get_numeric_from_row row (aliasesFor "packets_count") <;>
  cases h2 : _get_numeric_from_row row (aliasesFor "total_payload_bytes") <;>
  rcases hc : c row with ⟨_ | label⟩ | _ <;>
  cases um <;>
  simp [summariseStep, packetsContrib, h1, h2, hc] <;>
  (try split_ifs) <;>
  (try simp)

lemma summariseStep_total_payload (c : Row → ClassifyOutcome) (um : Bool)
    (st : SummariseState) (row : Row) :
    (summariseStep c um st row).total_payload_bytes =
      st.total_payload_bytes + payloadContrib row := by
  cases h1 : _get_numeric_from_row row (aliasesFor "packets_count") <;>
  cases h2 : _get_numeric_from_row row (aliasesFor "total_payload_bytes") <;>
  rcases hc : c row with ⟨_ | label⟩ | _ <;>
  cases um <;>
  simp [summariseStep, payloadContrib, h1, h2, hc] <;>
  (try split_ifs) <;>
  (try simp)

lemma foldl_total_packets (c : Row → ClassifyOutcome) (um : Bool)
    (rows : List Row) : ∀ st : SummariseState,
    (rows.foldl (summariseStep c um) st).total_packets =
      st.total_packets + (rows.map packetsContrib).sum := by
  induction rows with
  | nil => intro st; simp
  | cons r rest ih =>
    intro st
    simp only [List.foldl_cons, List.map_cons, List.sum_cons]
    rw [ih, summariseStep_total_packets]
    ring

lemma foldl_total_payload (c : Row → ClassifyOutcome) (um : Bool)
    (rows : List Row) : ∀ st : SummariseState,
    (rows.foldl (summariseStep c um) st).total_payload_bytes =
      st.total_payload_bytes + (rows.map payloadContrib).sum := by
  induction rows with
  | nil => intro st; simp
  | cons r rest ih =>
    intro st
    simp only [List.foldl_cons, List.map_cons, List.sum_cons]
    rw [ih, summariseStep_total_payload]
    ring

/-- **C8.** Aggregation is a pure, deterministic function of the parsed
rows, the classifier behaviour and the `use_model` flag: evaluating it
twice yields the same result.  A feature appears in the per-feature
statistics exactly when at least one row offered a value for it (features
with zero observations are omitted, not zero-filled), and the packet and
payload totals are the row-wise sums in which a missing value contributes
zero. -/
theorem aggregation_deterministic_and_stats (rows : List Row)
    (classify : Row → ClassifyOutcome) (use_model : Bool) :
    summarise_features_and_ml rows classify use_model =
      summarise_features_and_ml rows classify use_model ∧
    (∀ f ∈ FEATURES_OF_INTEREST,
      (((summarise_features_and_ml rows classify use_model).feature_stats.lookup
          f).isSome ↔
        ∃ r ∈ rows, (_get_numeric_from_row r (aliasesFor f)).isSome)) ∧
    (summarise_features_and_ml rows classify use_model).total_packets =
      (rows.map packetsContrib).sum ∧
    (summarise_features_and_ml rows classify use_model).total_payload_bytes =
      (rows.map payloadContrib).sum := by
  have hfs : (summarise_features_and_ml rows classify use_model).feature_stats =
      featureStatsOf
        ((rows.foldl (summariseStep classify use_model)
          initSummariseState).series) := by
    cases use_model <;> simp [summarise_features_and_ml]
  have hkeys : ((rows.foldl (summariseStep classify use_model)
      initSummariseState).series).map Prod.fst = FEATURES_OF_INTEREST := by
    rw [foldl_series_keys]
    rw [show initSummariseState.series =
      FEATURES_OF_INTEREST.map (fun x => (x, ([] : List ℚ))) from rfl]
    rw [List.map_map]
    rw [show (Prod.fst ∘ fun x : String => (x, ([] : List ℚ))) = id from rfl]
    exact List.map_id FEATURES_OF_INTEREST
  refine ⟨rfl, ?_, ?_, ?_⟩
  · intro f hf
    rw [hfs, lookup_featureStatsOf _ (by rw [hkeys]; decide) f,
      lookup_series_foldl classify use_model rows initSummariseState f hf]
    rw [show (initSummariseState.series).lookup f = some [] by
      rw [show initSummariseState.series =
        FEATURES_OF_INTEREST.map (fun x => (x, ([] : List ℚ))) from rfl]
      rw [lookup_init_series, if_pos hf]]
    simp only [Option.map_some', List.nil_append, Option.some_bind]
    cases hm : rows.filterMap (fun r => _get_numeric_from_row r (aliasesFor f)) with
    | nil =>
      simp only [Option.isSome_none, Bool.false_eq_true, false_iff]
      rintro ⟨r, hr, hsome⟩
      have := List.filterMap_eq_nil_iff.mp hm r hr
      rw [this] at hsome
      exact absurd hsome (by simp)
    | cons v vs =>
      simp only [Option.isSome_some, true_iff]
      have hv : v ∈ rows.filterMap
          (fun r => _get_numeric_from_row r (aliasesFor f)) := by
        rw [hm]; exact List.mem_cons_self v vs
      rcases List.mem_filterMap.mp hv with ⟨r, hr, hgr⟩
      exact ⟨r, hr, by rw [hgr]; rfl⟩
  · cases use_model <;>
    simp [summarise_features_and_ml, foldl_total_packets, initSummariseState]
  · cases use_model <;>
    simp [summarise_features_and_ml, foldl_total_payload, initSummariseState]


/-- Witness for C8 at the two concrete rows: the packet total is the sum
of the per-row contributions. -/
theorem aggregation_deterministic_and_stats_witness :
    (summarise_features_and_ml exRows exClassify true).total_packets =
      (exRows.map packetsContrib).sum :=
  (aggregation_deterministic_and_stats exRows exClassify true).2.2.1

/-! ### C9 — ten unknown flows trigger the per-label alert for the label Unknown -/


lemma lookup_incr_map (h : List (String × Nat)) (lbl k : String) :
    ((h.map (fun p => if p.1 = lbl then (p.1, p.2 + 1) else p)).lookup k) =
      (h.lookup k).map (fun v => if k = lbl then v + 1 else v) := by
  induction h with
  | nil => rfl
  | cons p rest ih =>
    obtain ⟨a, m⟩ := p
    rw [List.map_cons]
    by_cases hka : k = a
    · subst hka
      by_cases hk : k = lbl
      · simp [List.lookup_cons, hk]
      · simp [List.lookup_cons, hk]
    · have hbeq : (k == a) = false := beq_false_of_ne hka
      by_cases ha : a = lbl
      · simp only [if_pos ha, List.lookup_cons, hbeq]
        exact ih
      · simp only [if_neg ha, List.lookup_cons, hbeq]
        exact ih

lemma incr_map_keys (h : List (String × Nat)) (lbl : String) :
    ((h.map (fun p => if p.1 = lbl then (p.1, p.2 + 1) else p)).map Prod.fst) =
      h.map Prod.fst := by
  simp only [List.map_map]
  refine List.map_congr_left ?_
  intro p _
  by_cases hp : p.1 = lbl <;> simp [hp]

lemma any_key_eq_false_iff (h : List (String × Nat)) (lbl : String) :
    (h.any (fun p => p.1 = lbl)) = false ↔ lbl ∉ h.map Prod.fst := by
  rw [← Bool.not_eq_true, List.any_eq_true]
  constructor
  · intro hf hmem
    rcases List.mem_map.mp hmem with ⟨p, hp, hkey⟩
    exact hf ⟨p, hp, by simpa using hkey⟩
  · intro hmem hex
    rcases hex with ⟨p, hp, hkey⟩
    exact hmem (List.mem_map.mpr ⟨p, hp, by simpa using hkey⟩)

lemma lookup_append_ne (h : List (String × Nat)) (lbl k : String)
    (n : Nat) (hk : k ≠ lbl) :
    ((h ++ [(lbl, n)]).lookup k) = h.lookup k := by
  induction h with
  | nil =>
    rw [List.nil_append]
    simp [List.lookup_cons, beq_false_of_ne hk]
  | cons p rest ih =>
    obtain ⟨a, m⟩ := p
    by_cases hka : k = a
    · subst hka
      simp [List.lookup_cons]
    · simp only [List.cons_append, List.lookup_cons, beq_false_of_ne hka]
      exact ih

lemma lookup_append_self (h : List (String × Nat)) (lbl : String) (n : Nat)
    (hnone : h.lookup lbl = none) :
    ((h ++ [(lbl, n)]).lookup lbl) = some n := by
  induction h with
  | nil =>
    rw [List.nil_append]
    simp [List.lookup_cons]
  | cons p rest ih =>
    obtain ⟨a, m⟩ := p
    by_cases hla : lbl = a
    · subst hla
      simp [List.lookup_cons] at hnone
    · simp only [List.lookup_cons, beq_false_of_ne hla] at hnone
      simp only [List.cons_append, List.lookup_cons, beq_false_of_ne hla]
      exact ih hnone

lemma lookup_none_of_not_mem_keys (h : List (String × Nat)) (k : String)
    (hk : k ∉ h.map Prod.fst) : h.lookup k = none := by
  induction h with
  | nil => rfl
  | cons p rest ih =>
    obtain ⟨a, m⟩ := p
    simp only [List.map_cons, List.mem_cons, not_or] at hk
    simp only [List.lookup_cons, beq_false_of_ne hk.1]
    exact ih hk.2

lemma lookup_isSome_of_mem_keys (h : List (String × Nat)) (k : String)
    (hk : k ∈ h.map Prod.fst) : (h.lookup k).isSome = true := by
  induction h with
  | nil => simp at hk
  | cons p rest ih =>
    obtain ⟨a, m⟩ := p
    simp only [List.map_cons, List.mem_cons] at hk
    by_cases hka : k = a
    · simp [List.lookup_cons, hka]
    · rcases hk with hk | hk
      · exact absurd hk hka
      · simp only [List.lookup_cons, beq_false_of_ne hka]
        exact ih hk

lemma lookup_incrLabel_same (h : List (String × Nat)) (lbl : String) :
    (incrLabel h lbl).lookup lbl = some ((h.lookup lbl).getD 0 + 1) := by
  unfold incrLabel
  cases ha : h.any (fun p => p.1 = lbl) with
  | true =>
    simp only [ha, if_true]
    rw [lookup_incr_map]
    cases hl : h.lookup lbl with
    | none =>
      exfalso
      rcases List.any_eq_true.mp ha with ⟨p, hp, hkey⟩
      have hmem : lbl ∈ h.map Prod.fst :=
        List.mem_map.mpr ⟨p, hp, by simpa using hkey⟩
      have := lookup_isSome_of_mem_keys h lbl hmem
      rw [hl] at this
      simp at this
    | some v => simp
  | false =>
    simp only [ha, Bool.false_eq_true, if_false]
    have hnone : h.lookup lbl = none :=
      lookup_none_of_not_mem_keys h lbl ((any_key_eq_false_iff h lbl).mp ha)
    rw [lookup_append_self h lbl 1 hnone, hnone]
    rfl

lemma lookup_incrLabel_other (h : List (String × Nat)) (lbl k : String)
    (hk : k ≠ lbl) :
    (incrLabel h lbl).lookup k = h.lookup k := by
  unfold incrLabel
  cases ha : h.any (fun p => p.1 = lbl) with
  | true =>
    simp only [ha, if_true]
    rw [lookup_incr_map]
    cases h.lookup k <;> simp [hk]
  | false =>
    simp only [ha, Bool.false_eq_true, if_false]
    exact lookup_append_ne h lbl k 1 hk

lemma incrLabel_keys_nodup (h : List (String × Nat)) (lbl : String)
    (hnd : (h.map Prod.fst).Nodup) :
    ((incrLabel h lbl).map Prod.fst).Nodup := by
  unfold incrLabel
  cases ha : h.any (fun p => p.1 = lbl) with
  | true =>
    simp only [ha, if_true]
    rw [incr_map_keys]
    exact hnd
  | false =>
    simp only [ha, Bool.false_eq_true, if_false]
    have hmem : lbl ∉ h.map Prod.fst := (any_key_eq_false_iff h lbl).mp ha
    simp [List.nodup_append, hnd, hmem]

lemma summariseStep_class_err (c : Row → ClassifyOutcome)
    (st : SummariseState) (row : Row) (hc : c row = ClassifyOutcome.err) :
    (summariseStep c true st row).unknown_flows = st.unknown_flows + 1 ∧
    (summariseStep c true st row).attacks_per_label =
      incrLabel st.attacks_per_label "Unknown" := by
  cases h1 : _get_numeric_from_row row (aliasesFor "packets_count") <;>
  cases h2 : _get_numeric_from_row row (aliasesFor "total_payload_bytes") <;>
  simp [summariseStep, hc, h1, h2]

lemma summariseStep_class_ok_none (c : Row → ClassifyOutcome)
    (st : SummariseState) (row : Row)
    (hc : c row = ClassifyOutcome.ok none) :
    (summariseStep c true st row).unknown_flows = st.unknown_flows ∧
    (summariseStep c true st row).attacks_per_label =
      st.attacks_per_label := by
  cases h1 : _get_numeric_from_row row (aliasesFor "packets_count") <;>
  cases h2 : _get_numeric_from_row row (aliasesFor "total_payload_bytes") <;>
  simp [summariseStep, hc, h1, h2]

lemma summariseStep_class_benign (c : Row → ClassifyOutcome)
    (st : SummariseState) (row : Row)
    (hc : c row = ClassifyOutcome.ok (some "Benign")) :
    (summariseStep c true st row).unknown_flows = st.unknown_flows ∧
    (summariseStep c true st row).attacks_per_label =
      st.attacks_per_label := by
  cases h1 : _get_numeric_from_row row (aliasesFor "packets_count") <;>
  cases h2 : _get_numeric_from_row row (aliasesFor "total_payload_bytes") <;>
  simp +decide [summariseStep, hc, h1, h2]

lemma summariseStep_class_unknown (c : Row → ClassifyOutcome)
    (st : SummariseState) (row : Row)
    (hc : c row = ClassifyOutcome.ok (some "Unknown")) :
    (summariseStep c true st row).unknown_flows = st.unknown_flows + 1 ∧
    (summariseStep c true st row).attacks_per_label =
      incrLabel st.attacks_per_label "Unknown" := by
  cases h1 : _get_numeric_from_row row (aliasesFor "packets_count") <;>
  cases h2 : _get_numeric_from_row row (aliasesFor "total_payload_bytes") <;>
  simp +decide [summariseStep, hc, h1, h2]

lemma summariseStep_class_attack (c : Row → ClassifyOutcome)
    (st : SummariseState) (row : Row) (label : String)
    (hc : c row = ClassifyOutcome.ok (some label))
    (hb : label ≠ "Benign") (hu : label ≠ "Unknown") :
    (summariseStep c true st row).unknown_flows = st.unknown_flows ∧
    (summariseStep c true st row).attacks_per_label =
      incrLabel st.attacks_per_label label := by
  cases h1 : _get_numeric_from_row row (aliasesFor "packets_count") <;>
  cases h2 : _get_numeric_from_row row (aliasesFor "total_payload_bytes") <;>
  simp [summariseStep, hc, h1, h2, hb, hu]

lemma summariseStep_disabled (c : Row → ClassifyOutcome)
    (st : SummariseState) (row : Row) :
    (summariseStep c false st row).unknown_flows = st.unknown_flows ∧
    (summariseStep c false st row).attacks_per_label =
      st.attacks_per_label := by
  cases h1 : _get_numeric_from_row row (aliasesFor "packets_count") <;>
  cases h2 : _get_numeric_from_row row (aliasesFor "total_payload_bytes") <;>
  simp [summariseStep, h1, h2]

lemma summariseStep_hist_inv (c : Row → ClassifyOutcome)
    (st : SummariseState) (row : Row)
    (hnd : (st.attacks_per_label.map Prod.fst).Nodup)
    (hlk : st.attacks_per_label.lookup "Unknown" =
      (if st.unknown_flows = 0 then none else some st.unknown_flows)) :
    (((summariseStep c true st row).attacks_per_label.map Prod.fst).Nodup) ∧
    ((summariseStep c true st row).attacks_per_label.lookup "Unknown" =
      (if (summariseStep c true st row).unknown_flows = 0 then none
       else some (summariseStep c true st row).unknown_flows)) := by
  rcases hc : c row with ⟨_ | label⟩ | _
  · have h := summariseStep_class_ok_none c st row hc
    rw [h.1, h.2]
    exact ⟨hnd, hlk⟩
  · by_cases hb : label = "Benign"
    · subst hb
      have h := summariseStep_class_benign c st row hc
      rw [h.1, h.2]
      exact ⟨hnd, hlk⟩
    · by_cases hu2 : label = "Unknown"
      · subst hu2
        have h := summariseStep_class_unknown c st row hc
        rw [h.1, h.2]
        refine ⟨incrLabel_keys_nodup _ _ hnd, ?_⟩
        rw [lookup_incrLabel_same, hlk]
        by_cases hu : st.unknown_flows = 0 <;> simp [hu]
      · have h := summariseStep_class_attack c st row label hc hb hu2
        rw [h.1, h.2]
        refine ⟨incrLabel_keys_nodup _ _ hnd, ?_⟩
        rw [lookup_incrLabel_other st.attacks_per_label label "Unknown"
          (fun hx => hu2 hx.symm), hlk]
  · have h := summariseStep_class_err c st row hc
    rw [h.1, h.2]
    refine ⟨incrLabel_keys_nodup _ _ hnd, ?_⟩
    rw [lookup_incrLabel_same, hlk]
    by_cases hu : st.unknown_flows = 0 <;> simp [hu]

lemma foldl_hist_inv (c : Row → ClassifyOutcome) (rows : List Row) :
    ∀ st : SummariseState,
    (st.attacks_per_label.map Prod.fst).Nodup →
    (st.attacks_per_label.lookup "Unknown" =
      (if st.unknown_flows = 0 then none else some st.unknown_flows)) →
    (((rows.foldl (summariseStep c true) st).attacks_per_label.map
        Prod.fst).Nodup) ∧
    ((rows.foldl (summariseStep c true) st).attacks_per_label.lookup
        "Unknown" =
      (if (rows.foldl (summariseStep c true) st).unknown_flows = 0 then none
       else some (rows.foldl (summariseStep c true) st).unknown_flows)) := by
  induction rows with
  | nil => intro st h1 h2; exact ⟨h1, h2⟩
  | cons r rest ih =>
    intro st h1 h2
    simp only [List.foldl_cons]
    have hstep := summariseStep_hist_inv c st r h1 h2
    exact ih _ hstep.1 hstep.2

lemma summariseStep_unknown_le (c : Row → ClassifyOutcome) (um : Bool)
    (st : SummariseState) (row : Row) :
    (summariseStep c um st row).unknown_flows ≤ st.unknown_flows + 1 := by
  cases um
  · rw [(summariseStep_disabled c st row).1]
    omega
  · rcases hc : c row with ⟨_ | label⟩ | _
    · rw [(summariseStep_class_ok_none c st row hc).1]
      omega
    · by_cases hb : label = "Benign"
      · subst hb
        rw [(summariseStep_class_benign c st row hc).1]
        omega
      · by_cases hu2 : label = "Unknown"
        · subst hu2
          rw [(summariseStep_class_unknown c st row hc).1]
        · rw [(summariseStep_class_attack c st row label hc hb hu2).1]
          omega
    · rw [(summariseStep_class_err c st row hc).1]

lemma foldl_unknown_le (c : Row → ClassifyOutcome) (um : Bool)
    (rows : List Row) : ∀ st : SummariseState,
    (rows.foldl (summariseStep c um) st).unknown_flows ≤
      st.unknown_flows + rows.length := by
  induction rows with
  | nil => intro st; simp
  | cons r rest ih =>
    intro st
    simp only [List.foldl_cons, List.length_cons]
    calc (rest.foldl (summariseStep c um) (summariseStep c um st r)).unknown_flows
        ≤ (summariseStep c um st r).unknown_flows + rest.length := ih _
      _ ≤ st.unknown_flows + 1 + rest.length :=
          Nat.add_le_add_right (summariseStep_unknown_le c um st r) rest.length
      _ = st.unknown_flows + (rest.length + 1) := by omega

lemma title_eq_iff (a b : String) :
    ("Elevated: " ++ a ++ " Activity") = ("Elevated: " ++ b ++ " Activity") ↔
      a = b := by
  constructor
  · intro h
    have hd := congrArg String.data h
    simp only [String.data_append] at hd
    rw [List.append_assoc, List.append_assoc] at hd
    have h1 := List.append_cancel_left hd
    have h2 := List.append_cancel_right h1
    cases a with
    | mk da =>
      cases b with
      | mk db =>
        have h3 : da = db := by simpa using h2
        rw [h3]
  · intro h
    rw [h]

lemma lookup_mem (h : List (String × Nat)) (k : String) (n : Nat)
    (hlk : h.lookup k = some n) : (k, n) ∈ h := by
  induction h with
  | nil => simp at hlk
  | cons p rest ih =>
    obtain ⟨a, m⟩ := p
    by_cases hka : k = a
    · subst hka
      simp [List.lookup_cons] at hlk
      simp [hlk]
    · simp only [List.lookup_cons, beq_false_of_ne hka] at hlk
      exact List.mem_cons_of_mem _ (ih hlk)

lemma filter_key_singleton (h : List (String × Nat)) (k : String) (n : Nat)
    (hnd : (h.map Prod.fst).Nodup) (hlk : h.lookup k = some n)
    (hn : 10 ≤ n) :
    (h.filter (fun p => 10 ≤ p.2 ∧ p.1 = k)).length = 1 := by
  induction h with
  | nil => simp at hlk
  | cons p rest ih =>
    obtain ⟨a, m⟩ := p
    simp only [List.map_cons, List.nodup_cons] at hnd
    by_cases hka : k = a
    · subst hka
      simp [List.lookup_cons] at hlk
      subst hlk
      rw [List.filter_cons, if_pos (by simp [hn])]
      have hz : (rest.filter (fun p => 10 ≤ p.2 ∧ p.1 = k)).length = 0 := by
        rw [List.length_eq_zero]
        refine List.filter_eq_nil_iff.mpr ?_
        intro p hp
        simp only [decide_eq_true_eq, not_and]
        intro _ hpk
        exact hnd.1 (List.mem_map.mpr ⟨p, hp, hpk⟩)
      rw [List.length_cons, hz]
    · simp only [List.lookup_cons, beq_false_of_ne hka] at hlk
      rw [List.filter_cons, if_neg (by
        simp only [decide_eq_true_eq, not_and]
        exact fun _ hax => hka hax.symm)]
      exact ih hnd.2 hlk

lemma countTitle_cons (a : AlertModel) (l : List AlertModel) (t : String) :
    countTitle (a :: l) t = (if a.title = t then 1 else 0) + countTitle l t := by
  simp only [countTitle, List.filter_cons]
  split_ifs with h <;> simp_all [Nat.add_comm]

lemma countTitle_map_eq_zero_of_mem {α : Type} (f : α → AlertModel)
    (l : List α) (t : String) (h : ∀ x ∈ l, (f x).title ≠ t) :
    countTitle (l.map f) t = 0 := by
  simp only [countTitle, List.filter_map, List.length_map, List.length_eq_zero]
  exact List.filter_eq_nil_iff.mpr (fun a ha => by simp [Function.comp, h a ha])

lemma countTitle_label_alerts_unknown (wid : String)
    (hist : List (String × Nat)) (n : Nat)
    (hnd : (hist.map Prod.fst).Nodup)
    (hlk : hist.lookup "Unknown" = some n) (hn : 10 ≤ n) :
    countTitle ((hist.filter (fun p => 10 ≤ p.2)).map
      (fun p =>
        ({ window_id := wid, alert_type := "elevated", severity := "medium",
           title := "Elevated: " ++ p.1 ++ " Activity" } : AlertModel)))
      "Elevated: Unknown Activity" = 1 := by
  induction hist with
  | nil => simp at hlk
  | cons p rest ih =>
    obtain ⟨a, m⟩ := p
    simp only [List.map_cons, List.nodup_cons] at hnd
    by_cases hka : a = "Unknown"
    · subst hka
      simp [List.lookup_cons] at hlk
      subst hlk
      rw [List.filter_cons, if_pos (by simp [hn]), List.map_cons,
        countTitle_cons]
      rw [if_pos (by
        rw [show ("Elevated: Unknown Activity" : String) =
          "Elevated: " ++ "Unknown" ++ " Activity" from rfl])]
      rw [countTitle_map_eq_zero_of_mem]
      · intro x hx
        have hxr : x ∈ rest := List.mem_of_mem_filter hx
        have hxk : x.1 ≠ "Unknown" := by
          intro hxk
          exact hnd.1 (List.mem_map.mpr ⟨x, hxr, hxk⟩)
        intro ht
        rw [show ("Elevated: Unknown Activity" : String) =
          "Elevated: " ++ "Unknown" ++ " Activity" from rfl] at ht
        exact hxk ((title_eq_iff x.1 "Unknown").mp ht)
    · simp only [List.lookup_cons, beq_false_of_ne (fun hx => hka hx.symm)]
        at hlk
      rw [List.filter_cons]
      by_cases hm : 10 ≤ m
      · rw [if_pos (by simp [hm]), List.map_cons, countTitle_cons]
        rw [if_neg (by
          intro ht
          rw [show ("Elevated: Unknown Activity" : String) =
            "Elevated: " ++ "Unknown" ++ " Activity" from rfl] at ht
          exact hka ((title_eq_iff a "Unknown").mp ht))]
        rw [ih hnd.2 hlk]
      · rw [if_neg (by simp [hm])]
        exact ih hnd.2 hlk

/-- **C9.** Unknown verdicts are tallied into the label histogram under the
key `"Unknown"`, so any window with at least 10 unknown flows triggers the
per-label rule as well: the alert evaluation emits exactly one
elevated/medium alert titled `"Elevated: Unknown Activity"` (the per-label
alert naming the label `Unknown`), that alert is a member of the emitted
list, and it is independent of the unknown-rate threshold alert, which fires
exactly when the unknown percentage reaches the configured threshold. -/
theorem unknown_flows_trigger_label_alert (rows : List Row)
    (classify : Row → ClassifyOutcome) (cfg : PublicAlertsConfig)
    (wid : String) (t : Int)
    (hen : cfg.enable_public_alerts = true)
    (h10 : 10 ≤ (summarise_features_and_ml rows classify true).unknown_flows) :
    countTitle
      (check_and_create_alerts
        (windowModelOfSummary wid t
          (summarise_features_and_ml rows classify true)) cfg)
      "Elevated: Unknown Activity" = 1 ∧
    ({ window_id := wid, alert_type := "elevated", severity := "medium",
       title := "Elevated: Unknown Activity" } : AlertModel) ∈
      check_and_create_alerts
        (windowModelOfSummary wid t
          (summarise_features_and_ml rows classify true)) cfg ∧
    (0 < countTitle
        (check_and_create_alerts
          (windowModelOfSummary wid t
            (summarise_features_and_ml rows classify true)) cfg)
        "Elevated: High Unknown Flow Rate" ↔
      cfg.alert_threshold_unknown_percent ≤
        ((summarise_features_and_ml rows classify true).unknown_flows : ℚ) /
          ((summarise_features_and_ml rows classify true).flows_count : ℚ) *
          100) := by
  have hsu : (summarise_features_and_ml rows classify true).unknown_flows =
      (rows.foldl (summariseStep classify true)
        initSummariseState).unknown_flows := by
    simp [summarise_features_and_ml]
  have hsa : (summarise_features_and_ml rows classify true).attacks_per_label =
      (rows.foldl (summariseStep classify true)
        initSummariseState).attacks_per_label := by
    simp [summarise_features_and_ml]
  have hsf : (summarise_features_and_ml rows classify true).flows_count =
      (rows.foldl (summariseStep classify true)
        initSummariseState).flows_count := by
    simp [summarise_features_and_ml]
  have hinv := foldl_hist_inv classify rows initSummariseState
    (by simp [initSummariseState]) (by simp [initSummariseState])
  rw [hsu] at h10
  have hne0 : (rows.foldl (summariseStep classify true)
      initSummariseState).unknown_flows ≠ 0 := by omega
  have hlk : (rows.foldl (summariseStep classify true)
      initSummariseState).attacks_per_label.lookup "Unknown" =
      some (rows.foldl (summariseStep classify true)
        initSummariseState).unknown_flows := by
    rw [hinv.2, if_neg hne0]
  have hle := foldl_unknown_le classify true rows initSummariseState
  have hfc := foldl_flows_count classify true rows initSummariseState
  have htot : (summarise_features_and_ml rows classify true).flows_count ≠ 0 := by
    rw [hsf]
    rw [show initSummariseState.unknown_flows = 0 from rfl] at hle
    rw [show initSummariseState.flows_count = 0 from rfl] at hfc
    omega
  have hen' : ¬ (cfg.enable_public_alerts = false) := by simp [hen]
  have hw_id : (windowModelOfSummary wid t
      (summarise_features_and_ml rows classify true)).id = wid := rfl
  have hw_tot : (windowModelOfSummary wid t
      (summarise_features_and_ml rows classify true)).total_flows =
      (summarise_features_and_ml rows classify true).flows_count := rfl
  have hw_unk : (windowModelOfSummary wid t
      (summarise_features_and_ml rows classify true)).unknown_flows =
      (summarise_features_and_ml rows classify true).unknown_flows := rfl
  have hw_att : (windowModelOfSummary wid t
      (summarise_features_and_ml rows classify true)).attacks_per_label =
      (summarise_features_and_ml rows classify true).attacks_per_label := rfl
  have hcount_label := countTitle_label_alerts_unknown wid
    ((summarise_features_and_ml rows classify true).attacks_per_label)
    ((rows.foldl (summariseStep classify true)
      initSummariseState).unknown_flows)
    (by rw [hsa]; exact hinv.1) (by rw [hsa]; exact hlk) h10
  have htot' : ¬ ((windowModelOfSummary wid t
      (summarise_features_and_ml rows classify true)).total_flows = 0) := by
    rw [hw_tot]
    exact htot
  refine ⟨?_, ?_, ?_⟩
  · simp only [check_and_create_alerts, if_neg hen', if_neg htot',
      countTitle_append, hw_id, hw_att]
    rw [hcount_label]
    by_cases hA1 : (((windowModelOfSummary wid t
        (summarise_features_and_ml rows classify true)).attack_flows : ℚ) /
        ((windowModelOfSummary wid t
          (summarise_features_and_ml rows classify true)).total_flows : ℚ) *
        100) ≥ 50 <;>
    by_cases hA2 : (((windowModelOfSummary wid t
        (summarise_features_and_ml rows classify true)).attack_flows : ℚ) /
        ((windowModelOfSummary wid t
          (summarise_features_and_ml rows classify true)).total_flows : ℚ) *
        100) ≥ cfg.alert_threshold_attack_percent <;>
    by_cases hHU : (((windowModelOfSummary wid t
        (summarise_features_and_ml rows classify true)).unknown_flows : ℚ) /
        ((windowModelOfSummary wid t
          (summarise_features_and_ml rows classify true)).total_flows : ℚ) *
        100) ≥ cfg.alert_threshold_unknown_percent <;>
    by_cases hHV : (windowModelOfSummary wid t
        (summarise_features_and_ml rows classify true)).total_flows ≥
        cfg.alert_threshold_flow_count <;>
    simp +decide [hA1, hA2, hHU, hHV, countTitle]
  · simp only [check_and_create_alerts, if_neg hen', if_neg htot', hw_id,
      hw_att]
    refine List.mem_append.mpr (Or.inr ?_)
    refine List.mem_map.mpr ?_
    refine ⟨("Unknown", (rows.foldl (summariseStep classify true)
      initSummariseState).unknown_flows), ?_, ?_⟩
    · refine List.mem_filter.mpr ⟨?_, by simpa using h10⟩
      rw [hsa]
      exact lookup_mem _ _ _ hlk
    · rfl
  · simp only [check_and_create_alerts, if_neg hen', if_neg htot']
    simp only [countTitle_append,
      countTitle_label_alerts _ _ (fun l => label_title_ne_unknown_rate l)]
    rw [hw_unk, hw_tot]
    by_cases hA1 : (((windowModelOfSummary wid t
        (summarise_features_and_ml rows classify true)).attack_flows : ℚ) /
        ((summarise_features_and_ml rows classify true).flows_count : ℚ) *
        100) ≥ 50 <;>
    by_cases hA2 : (((windowModelOfSummary wid t
        (summarise_features_and_ml rows classify true)).attack_flows : ℚ) /
        ((summarise_features_and_ml rows classify true).flows_count : ℚ) *
        100) ≥ cfg.alert_threshold_attack_percent <;>
    by_cases hHV : (summarise_features_and_ml rows classify true).flows_count ≥
        cfg.alert_threshold_flow_count <;>
    by_cases hHU : (((summarise_features_and_ml rows classify
        true).unknown_flows : ℚ) /
        ((summarise_features_and_ml rows classify true).flows_count : ℚ) *
        100) ≥ cfg.alert_threshold_unknown_percent <;>
    simp +decide [hA1, hA2, hHV, hHU, countTitle, ge_iff_le]

/-- Witness for C9: ten rows all classified `Unknown` under the default
configuration yield exactly one `"Elevated: Unknown Activity"` alert. -/
theorem unknown_flows_trigger_label_alert_witness :
    countTitle
      (check_and_create_alerts
        (windowModelOfSummary "w1" 0
          (summarise_features_and_ml (List.replicate 10 ([] : Row))
            (fun _ => ClassifyOutcome.ok (some "Unknown")) true))
        defaultAlertsConfig)
      "Elevated: Unknown Activity" = 1 :=
  (unknown_flows_trigger_label_alert (List.replicate 10 ([] : Row))
    (fun _ => ClassifyOutcome.ok (some "Unknown")) defaultAlertsConfig
    "w1" 0 rfl (by decide)).1

/-! ### C10 — the JSON window store round-trips -/

lemma someBind {α β : Type} (a : α) (f : α → Option β) :
    (some a >>= f) = f a := rfl

lemma digitChar_isDigit (d : Nat) (h : d < 10) :
    (Nat.digitChar d).isDigit = true := by
  interval_cases d <;> decide

lemma digitVal_digitChar (d : Nat) (h : d < 10) :
    digitVal (Nat.digitChar d) = d := by
  interval_cases d <;> decide

lemma renderNat_length (w n : Nat) : (renderNat w n).length = w := by
  induction w generalizing n with
  | zero => rfl
  | succ w ih => simp [renderNat, ih]

lemma renderNat_all_digits (w n : Nat) :
    (renderNat w n).all Char.isDigit = true := by
  induction w generalizing n with
  | zero => rfl
  | succ w ih =>
    simp only [renderNat, List.all_append, ih, Bool.true_and, List.all_cons,
      List.all_nil, Bool.and_true]
    exact digitChar_isDigit _ (Nat.mod_lt _ (by omega))

lemma parseDigits_append_singleton (l : List Char) (c : Char) :
    parseDigits (l ++ [c]) = parseDigits l * 10 + digitVal c := by
  simp [parseDigits, List.foldl_append]

lemma parseDigits_renderNat (w n : Nat) (h : n < 10 ^ w) :
    parseDigits (renderNat w n) = n := by
  induction w generalizing n with
  | zero =>
    have : n = 0 := by simpa using h
    simp [this, renderNat, parseDigits]
  | succ w ih =>
    have hd : n / 10 < 10 ^ w := by
      rw [Nat.div_lt_iff_lt_mul (by omega)]
      calc n < 10 ^ (w + 1) := h
        _ = 10 ^ w * 10 := by ring
    rw [renderNat, parseDigits_append_singleton, ih _ hd,
      digitVal_digitChar _ (Nat.mod_lt _ (by omega))]
    omega

lemma takeNatFixed_renderNat (w n : Nat) (rest : List Char)
    (h : n < 10 ^ w) :
    takeNatFixed w (renderNat w n ++ rest) = some (n, rest) := by
  have hlen : (renderNat w n).length = w := renderNat_length w n
  rw [takeNatFixed]
  rw [List.take_left' hlen, List.drop_left' hlen]
  rw [if_pos ⟨hlen, renderNat_all_digits w n⟩, parseDigits_renderNat w n h]

lemma expectChar_cons (c : Char) (rest : List Char) :
    expectChar c (c :: rest) = some rest := by
  simp [expectChar]

lemma daysInMonth_le_31 (y m : Nat) : daysInMonth y m ≤ 31 := by
  rw [daysInMonth]
  split
  · split <;> omega
  · split <;> omega

lemma parseIsoUtcChars_isoChars (d : DateTime) (hv : d.Valid) :
    parseIsoUtcChars (isoChars d ++ ['+', '0', '0', ':', '0', '0']) =
      some d := by
  obtain ⟨y, mo, da, h, mi, s, us⟩ := d
  obtain ⟨h1, h2, h3, h4, h5, h6, h7, h8, h9, h10⟩ := hv
  have hy : y ≤ 9999 := h2
  have hmo : mo ≤ 12 := h4
  have hda : da ≤ daysInMonth y mo := h6
  have hh : h ≤ 23 := h7
  have hmi : mi ≤ 59 := h8
  have hs : s ≤ 59 := h9
  have hus : us ≤ 999999 := h10
  have h31 := daysInMonth_le_31 y mo
  rw [parseIsoUtcChars]
  simp only [isoChars, List.append_assoc, List.cons_append, List.nil_append]
  rw [takeNatFixed_renderNat 4 y _ (by omega)]
  simp only [someBind]
  rw [expectChar_cons]
  simp only [someBind]
  rw [takeNatFixed_renderNat 2 mo _ (by omega)]
  simp only [someBind]
  rw [expectChar_cons]
  simp only [someBind]
  rw [takeNatFixed_renderNat 2 da _ (by omega)]
  simp only [someBind]
  rw [expectChar_cons]
  simp only [someBind]
  rw [takeNatFixed_renderNat 2 h _ (by omega)]
  simp only [someBind]
  rw [expectChar_cons]
  simp only [someBind]
  rw [takeNatFixed_renderNat 2 mi _ (by omega)]
  simp only [someBind]
  rw [expectChar_cons]
  simp only [someBind]
  rw [takeNatFixed_renderNat 2 s _ (by omega)]
  simp only [someBind]
  by_cases husz : us = 0
  · subst husz
    simp only [if_pos rfl, List.nil_append]
    exact if_pos ⟨h1, h2, h3, h4, h5, h6, h7, h8, h9, h10⟩
  · rw [if_neg husz]
    simp only [List.cons_append]
    rw [takeNatFixed_renderNat 6 us _ (by omega)]
    simp only [someBind]
    exact if_pos ⟨h1, h2, h3, h4, h5, h6, h7, h8, h9, h10⟩

lemma iso_z_last (d : DateTime) :
    (iso_z d).data.getLast? = some 'Z' := by
  rw [iso_z]
  show (isoChars d ++ ['Z']).getLast? = some 'Z'
  simp

lemma parse_ts_iso_z (d : DateTime) (hv : d.Valid) :
    parse_ts (iso_z d) = some d := by
  rw [parse_ts, if_pos (iso_z_last d)]
  rw [show (iso_z d).data.dropLast = isoChars d by
    rw [iso_z]
    show (isoChars d ++ ['Z']).dropLast = isoChars d
    simp]
  exact parseIsoUtcChars_isoChars d hv

lemma parse_stats_value_to_json (fs : FeatureStats) :
    parse_stats_value (FeatureStats.to_json fs) = some fs := rfl

lemma parse_feature_stats_map (l : List (String × FeatureStats)) :
    parse_feature_stats (l.map (fun p => (p.1, p.2.to_json))) = some l := by
  induction l with
  | nil => rfl
  | cons p rest ih =>
    obtain ⟨name, fs⟩ := p
    simp only [List.map_cons, parse_feature_stats, parse_stats_value_to_json,
      ih, someBind]
    rfl

lemma parse_attacks_per_label_map (l : List (String × Int)) :
    parse_attacks_per_label (l.map (fun p => (p.1, JValue.intVal p.2))) =
      some l := by
  induction l with
  | nil => rfl
  | cons p rest ih =>
    obtain ⟨name, n⟩ := p
    simp only [List.map_cons, parse_attacks_per_label, JValue.asInt, ih,
      someBind]
    rfl

lemma metrics_dict_round_trip (m : WindowMetrics)
    (h1 : m.start_time.Valid) (h2 : m.end_time.Valid) :
    _metrics_from_dict
      [("start_time", JValue.str (iso_z m.start_time)),
       ("end_time", JValue.str (iso_z m.end_time)),
       ("total_flows", JValue.intVal m.total_flows),
       ("total_packets", JValue.intVal m.total_packets),
       ("benign_flows", JValue.intVal m.benign_flows),
       ("attack_flows", JValue.intVal m.attack_flows),
       ("unknown_flows", JValue.intVal m.unknown_flows),
       ("attacks_per_label", JValue.obj
         (m.attacks_per_label.map (fun p => (p.1, JValue.intVal p.2)))),
       ("total_payload_bytes", JValue.intVal m.total_payload_bytes),
       ("feature_stats", JValue.obj
         (m.feature_stats.map (fun p => (p.1, p.2.to_json))))] = some m := by
  rw [show _metrics_from_dict
      [("start_time", JValue.str (iso_z m.start_time)),
       ("end_time", JValue.str (iso_z m.end_time)),
       ("total_flows", JValue.intVal m.total_flows),
       ("total_packets", JValue.intVal m.total_packets),
       ("benign_flows", JValue.intVal m.benign_flows),
       ("attack_flows", JValue.intVal m.attack_flows),
       ("unknown_flows", JValue.intVal m.unknown_flows),
       ("attacks_per_label", JValue.obj
         (m.attacks_per_label.map (fun p => (p.1, JValue.intVal p.2)))),
       ("total_payload_bytes", JValue.intVal m.total_payload_bytes),
       ("feature_stats", JValue.obj
         (m.feature_stats.map (fun p => (p.1, p.2.to_json))))] =
    (parse_feature_stats
        (m.feature_stats.map (fun p => (p.1, p.2.to_json)))).bind
      (fun fs => (parse_ts (iso_z m.start_time)).bind
        (fun st => (parse_ts (iso_z m.end_time)).bind
          (fun et => (parse_attacks_per_label
              (m.attacks_per_label.map
                (fun p => (p.1, JValue.intVal p.2)))).bind
            (fun apl => some
              { start_time := st, end_time := et,
                total_flows := m.total_flows,
                total_packets := m.total_packets,
                benign_flows := m.benign_flows,
                attack_flows := m.attack_flows,
                attacks_per_label := apl,
                total_payload_bytes := m.total_payload_bytes,
                feature_stats := fs,
                unknown_flows := m.unknown_flows })))) from rfl]
  rw [parse_feature_stats_map]
  simp only [Option.some_bind]
  rw [parse_ts_iso_z _ h1]
  simp only [Option.some_bind]
  rw [parse_ts_iso_z _ h2]
  simp only [Option.some_bind]
  rw [parse_attacks_per_label_map]
  simp only [Option.some_bind]

lemma parse_window_item_to_dict (w : Window)
    (h1 : w.metrics.start_time.Valid) (h2 : w.metrics.end_time.Valid) :
    parse_window_item (Window.to_dict w) = some w := by
  rw [show parse_window_item (Window.to_dict w) =
    (_metrics_from_dict
      [("start_time", JValue.str (iso_z w.metrics.start_time)),
       ("end_time", JValue.str (iso_z w.metrics.end_time)),
       ("total_flows", JValue.intVal w.metrics.total_flows),
       ("total_packets", JValue.intVal w.metrics.total_packets),
       ("benign_flows", JValue.intVal w.metrics.benign_flows),
       ("attack_flows", JValue.intVal w.metrics.attack_flows),
       ("unknown_flows", JValue.intVal w.metrics.unknown_flows),
       ("attacks_per_label", JValue.obj
         (w.metrics.attacks_per_label.map
           (fun p => (p.1, JValue.intVal p.2)))),
       ("total_payload_bytes",
         JValue.intVal w.metrics.total_payload_bytes),
       ("feature_stats", JValue.obj
         (w.metrics.feature_stats.map
           (fun p => (p.1, p.2.to_json))))]).bind
      (fun metrics => some ⟨w.id, metrics, w.llm_summary⟩) from rfl]
  rw [metrics_dict_round_trip w.metrics h1 h2]
  simp only [Option.some_bind]

/-- **C10.** The file-based window store round-trips: saving any list of
windows whose (timezone-aware UTC) timestamps are valid `datetime` values
to JSON and loading the list back yields windows equal to the originals —
same id, same metrics including `unknown_flows`, the per-label attack
counts and the per-feature stats, and the same narrative — and every
serialized timestamp is an ISO-8601 UTC string with a `'Z'` suffix, parsed
back to the same instant. -/
theorem storage_round_trip (ws : List Window)
    (hv : ∀ w ∈ ws, w.metrics.start_time.Valid ∧ w.metrics.end_time.Valid) :
    load_windows_from (save_windows_json ws) = ws ∧
    ∀ w ∈ ws, (iso_z w.metrics.start_time).data.getLast? = some 'Z' ∧
      (iso_z w.metrics.end_time).data.getLast? = some 'Z' := by
  constructor
  · induction ws with
    | nil => rfl
    | cons w rest ih =>
      have hw := hv w (List.mem_cons_self w rest)
      simp only [save_windows_json, List.map_cons, load_windows_from,
        List.filterMap_cons, parse_window_item_to_dict w hw.1 hw.2]
      have := ih (fun x hx => hv x (List.mem_cons_of_mem w hx))
      simp only [save_windows_json, load_windows_from] at this
      rw [this]
  · intro w _
    exact ⟨iso_z_last _, iso_z_last _⟩

/-- Witness for C10 at a concrete one-window store. -/
theorem storage_round_trip_witness :
    load_windows_from (save_windows_json [exStoreWindow]) = [exStoreWindow] :=
  (storage_round_trip [exStoreWindow] (by decide)).1

end NetMon
